import Mathlib

/-!
A shallow embedding of the Steward stewardship-contract evaluation engine
(crates `steward-core` and `steward-runtime`), with proofs about its
synthesizer, lenses, evidence validator and circuit breaker.

Modelling conventions:

* Rust `String` values are modelled as Lean `String` (a sequence of Unicode
  scalar values, exactly as Rust).  Byte-indexed operations of Rust `str`
  (`len`, `find`, byte-range slicing) are modelled by explicit UTF-8
  byte-length helpers below; a Rust slice `s[a..b]` that would panic on a
  non-character-boundary index is modelled as `none`.
* Rust `f64` confidence values are modelled as `ℚ`.  Every operation the
  sources perform on confidences (decimal literals, subtraction of decimal
  constants, `min`, `max`, `clamp`) is exact in binary floating point at the
  granularity any proved statement depends on, and `min`/`max`/comparisons
  are order-isomorphic between the two carriers, so nothing proved here
  depends on rounding.
* The regex-based detector families are external inputs of the lens
  algorithms (the regex engine is a vendored library, like serde); they are
  modelled as an explicit `Detectors` record of functions, so every theorem
  quantifies over the detector outcomes.  Substring/keyword checks that the
  sources implement directly (`str::contains`, `str::find`) are modelled
  concretely.
* `Utc::now()` and `Instant::now()` are modelled by explicit time
  parameters (`Nat`).
* The repository's `steward-core/src/types.rs` and
  `steward-core/src/lenses/mod.rs` are not part of the provided sources;
  the data types and the two helpers they contribute
  (`default_pass_finding`, the per-lens `question`) are modelled from the
  specification, and are marked as such.
-/

namespace Steward

/-- UTF-8 encoded byte length of one Unicode scalar value, as in Rust
`char::len_utf8`. -/
def utf8Len (c : Char) : Nat :=
  if c.toNat < 0x80 then 1
  else if c.toNat < 0x800 then 2
  else if c.toNat < 0x10000 then 3
  else 4

/-- UTF-8 byte length of a character list. -/
def byteLen (cs : List Char) : Nat := (cs.map utf8Len).sum

/-- UTF-8 byte length of a string, as in Rust `str::len`. -/
def strLen (s : String) : Nat := byteLen s.data

/-- Drop `n` UTF-8 bytes from the front of a character list.  `none` when
`n` does not land on a character boundary (the case in which Rust byte
slicing panics) or exceeds the byte length. -/
def dropBytes : List Char → Nat → Option (List Char)
  | cs, 0 => some cs
  | [], _ + 1 => none
  | c :: cs, n + 1 =>
    if utf8Len c ≤ n + 1 then dropBytes cs (n + 1 - utf8Len c) else none

/-- Take `n` UTF-8 bytes from the front of a character list.  `none` when
`n` does not land on a character boundary or exceeds the byte length. -/
def takeBytes : List Char → Nat → Option (List Char)
  | _, 0 => some []
  | [], _ + 1 => none
  | c :: cs, n + 1 =>
    if utf8Len c ≤ n + 1 then (takeBytes cs (n + 1 - utf8Len c)).map (c :: ·)
    else none

/-- The Rust byte slice `s[a..b]` (for `a ≤ b`): `none` models the panic at
a non-character-boundary or out-of-range index. -/
def byteSlice (cs : List Char) (a b : Nat) : Option (List Char) :=
  (dropBytes cs a).bind (fun t => takeBytes t (b - a))

/-- Substring test on character lists, as in Rust `str::contains` with a
string pattern. -/
def containsSub : List Char → List Char → Bool
  | hay, nd =>
    nd.isPrefixOf hay ||
      match hay with
      | [] => false
      | _ :: t => containsSub t nd

/-- Substring test on strings, as in Rust `str::contains`. -/
def containsStr (hay nd : String) : Bool := containsSub hay.data nd.data

/-- Byte position of the first occurrence of a substring, as in Rust
`str::find` with a string pattern. -/
def findSubPos : List Char → List Char → Option Nat
  | hay, nd =>
    if nd.isPrefixOf hay then some 0
    else
      match hay with
      | [] => none
      | c :: t => (findSubPos t nd).map (utf8Len c + ·)

/-- Model of Rust `str::to_lowercase`.  Only the ASCII range is mapped;
every keyword and phrase the sources compare against lowered text is pure
ASCII, so non-ASCII case folding is irrelevant to each property proved
here. -/
def lowerStr (s : String) : String := ⟨s.data.map Char.toLower⟩

/-- Lowered-substring test `s.to_lowercase().contains(kw)` used throughout
the lenses. -/
def lowerContains (s kw : String) : Bool := containsStr (lowerStr s) kw

/-- Modelled from the spec: the five lens identities (`LensType` of the
missing `types.rs`; §2 of the spec). -/
inductive LensType
  | DignityInclusion
  | BoundariesSafety
  | RestraintPrivacy
  | TransparencyContestability
  | AccountabilityOwnership
  deriving DecidableEq, Repr

/-- Modelled from the spec: one rule's outcome kind (`RuleResult` of the
missing `types.rs`; §3 `RuleEvaluation`). -/
inductive RuleResult
  | Satisfied
  | Violated
  | Uncertain
  | NotApplicable
  deriving DecidableEq, Repr

/-- Modelled from the spec: where a piece of evidence comes from
(`EvidenceSource` of the missing `types.rs`; §3 `Evidence`). -/
inductive EvidenceSource
  | Output
  | Context
  | Contract
  | Metadata
  deriving DecidableEq, Repr

/-- A piece of evidence supporting an evaluation finding
(`steward-core/src/evidence.rs`). -/
structure Evidence where
  claim : String
  source : EvidenceSource
  pointer : String
  deriving DecidableEq, Repr

/-- `Evidence::from_output` (`evidence.rs`). -/
def Evidence.from_output (claim : String) (start fin : Nat) : Evidence :=
  { claim := claim
    source := EvidenceSource.Output
    pointer := "output.content[" ++ toString start ++ ":" ++ toString fin ++ "]" }

/-- `Evidence::from_context` (`evidence.rs`). -/
def Evidence.from_context (claim : String) (index start fin : Nat) : Evidence :=
  { claim := claim
    source := EvidenceSource.Context
    pointer := "context[" ++ toString index ++ "][" ++ toString start ++ ":"
      ++ toString fin ++ "]" }

/-- `Evidence::from_contract` (`evidence.rs`). -/
def Evidence.from_contract (claim path : String) : Evidence :=
  { claim := claim, source := EvidenceSource.Contract, pointer := path }

/-- A single contract rule with ID and text (`contract/parser.rs`). -/
structure Rule where
  id : String
  rule : String
  deriving DecidableEq, Repr

/-- Intent section of a contract (`contract/parser.rs`). -/
structure Intent where
  purpose : String
  optimizing_for : List String
  never_optimize_away : List Rule
  deriving DecidableEq, Repr

/-- Boundaries section of a contract (`contract/parser.rs`). -/
structure Boundaries where
  may_do_autonomously : List Rule
  must_pause_when : List Rule
  must_escalate_when : List Rule
  invalidated_by : List Rule
  deriving DecidableEq, Repr

/-- Accountability section of a contract (`contract/parser.rs`). -/
structure Accountability where
  approved_by : Option String
  answerable_human : String
  escalation_path : List String
  review_cadence : Option String
  deriving DecidableEq, Repr

/-- Acceptance section of a contract (`contract/parser.rs`). -/
structure Acceptance where
  fit_criteria : List Rule
  dignity_check : List Rule
  deriving DecidableEq, Repr

/-- A stewardship contract (`contract/parser.rs`).  Contracts reach the
evaluation engine already parsed and validated. -/
structure Contract where
  contract_version : String
  schema_version : String
  policy_pack : List String
  name : String
  description : Option String
  intent : Intent
  boundaries : Boundaries
  accountability : Accountability
  acceptance : Acceptance
  deriving DecidableEq, Repr

/-- `Contract::boundaries_rules` (`contract/parser.rs`). -/
def Contract.boundaries_rules (c : Contract) : List Rule :=
  c.boundaries.may_do_autonomously ++ c.boundaries.must_pause_when ++
    c.boundaries.must_escalate_when ++ c.boundaries.invalidated_by

/-- `Contract::restraint_rules` (`contract/parser.rs`): privacy-related
rules from `invalidated_by` and `never_optimize_away`. -/
def Contract.restraint_rules (c : Contract) : List Rule :=
  (c.boundaries.invalidated_by.filter (fun r =>
    lowerContains r.rule "pii" || lowerContains r.rule "privacy" ||
    lowerContains r.rule "credential" || lowerContains r.rule "secret" ||
    lowerContains r.rule "expose")) ++
  (c.intent.never_optimize_away.filter (fun r =>
    lowerContains r.rule "privacy" || lowerContains r.rule "data"))

/-- `Contract::dignity_rules` (`contract/parser.rs`): the acceptance
dignity checks plus dignity-related `never_optimize_away` rules. -/
def Contract.dignity_rules (c : Contract) : List Rule :=
  c.acceptance.dignity_check ++
  (c.intent.never_optimize_away.filter (fun r =>
    lowerContains r.rule "dignity" || lowerContains r.rule "respect" ||
    lowerContains r.rule "human" || lowerContains r.rule "escalation"))

/-- `Contract::transparency_rules` (`contract/parser.rs`): the acceptance
fit criteria. -/
def Contract.transparency_rules (c : Contract) : List Rule :=
  c.acceptance.fit_criteria

/-- Modelled from the spec: the content type of an output (`ContentType`
of the missing `types.rs`; §3 `Output`, currently only "text"). -/
inductive ContentType
  | Text
  deriving DecidableEq, Repr

/-- Modelled from the spec: the content under evaluation (`Output` of the
missing `types.rs`; §3). -/
structure Output where
  content : String
  content_type : ContentType
  deriving DecidableEq, Repr

/-- `Output::text`, as used by every caller in the sources. -/
def Output.text (content : String) : Output :=
  { content := content, content_type := ContentType.Text }

/-- Modelled from the spec: one rule's recorded outcome (`RuleEvaluation`
of the missing `types.rs`; §3). -/
structure RuleEvaluation where
  rule_id : String
  rule_text : Option String
  result : RuleResult
  evidence : List Evidence
  rationale : Option String
  deriving DecidableEq, Repr

/-- Modelled from the spec: a lens's verdict (`LensState` of the missing
`types.rs`; §3 `LensFinding.state`). -/
inductive LensState
  | Pass
  | Escalate (reason : String)
  | Blocked (violation : String)
  deriving DecidableEq, Repr

/-- Modelled from the spec: a lens's full finding (`LensFinding` of the
missing `types.rs`; §3). -/
structure LensFinding where
  lens : Option LensType
  question_asked : Option String
  state : LensState
  rules_evaluated : List RuleEvaluation
  confidence : ℚ
  deriving DecidableEq, Repr

/-- Modelled from the spec: the five findings gathered for synthesis
(`LensFindings` of the missing `types.rs`, as used by `synthesizer.rs` and
`lib.rs`). -/
structure LensFindings where
  dignity_inclusion : LensFinding
  boundaries_safety : LensFinding
  restraint_privacy : LensFinding
  transparency_contestability : LensFinding
  accountability_ownership : LensFinding
  deriving DecidableEq, Repr

/-- Modelled from the spec: the violation reported by a `Blocked` verdict
(`BoundaryViolation` of the missing `types.rs`; §3 `EvaluationResult`). -/
structure BoundaryViolation where
  lens : LensType
  rule_id : String
  rule_text : String
  evidence : List Evidence
  accountable_human : String
  deriving DecidableEq, Repr

/-- Modelled from the spec: the final verdict (`State` of the missing
`types.rs`; §3 `EvaluationResult.state`). -/
inductive State
  | Proceed (summary : String)
  | Escalate (uncertainty decision_point : String) (options : List String)
  | Blocked (violation : BoundaryViolation)
  deriving DecidableEq, Repr

/-- Modelled from the spec: the final result of one evaluation
(`EvaluationResult` of the missing `types.rs`; §3).  `evaluated_at` is the
timestamp taken from `Utc::now()`, modelled as a `Nat` parameter. -/
structure EvaluationResult where
  state : State
  lens_findings : LensFindings
  confidence : ℚ
  evaluated_at : Nat
  deriving DecidableEq, Repr

/-- Modelled from the spec: the input bundle handed to each lens
(`EvaluationRequest` of the missing `types.rs`, as used by `lib.rs` and the
lens files). -/
structure EvaluationRequest where
  contract : Contract
  output : Output
  context : Option (List String)
  metadata : Option (List (String × String))
  deriving DecidableEq, Repr

/-- The regex-based detector families used by the lenses
(`lazy_static` tables of `boundaries.rs`, `dignity.rs`,
`transparency.rs`).  The regex engine is an external library, so each
detector is modelled as an opaque function; every theorem below holds for
every possible detector behaviour, and each concrete witness instantiates
them with the values the actual patterns produce on the chosen content.
Match lists carry `(label, start, end)` byte ranges as in the sources. -/
structure Detectors where
  check_pii : String → List (String × Nat × Nat)
  check_secrets : String → List (String × Nat × Nat)
  check_dismissive : String → List (String × Nat × Nat)
  check_pressure : String → List (String × Nat × Nat)
  check_exclusion : String → List (String × Nat × Nat)
  has_human_escalation : String → Bool
  has_empathy : String → Bool
  has_citations : String → Bool
  claim_matches : String → List (String × Nat × Nat)
  has_explicit_assumptions : String → Bool
  check_hidden_assumptions : String → List (String × Nat × Nat)
  has_contestability : String → Bool
  has_next_steps : String → Bool
  addresses_question : String → Bool

/-- Modelled from the spec: the question string of each lens (default
`question` method of the `Lens` trait in the missing `lenses/mod.rs`); the
strings are the documented per-lens questions. -/
def question : LensType → String
  | LensType.BoundariesSafety => "Does this respect defined scope and stop conditions?"
  | LensType.DignityInclusion => "Does this disempower people or exclude them from relevance?"
  | LensType.RestraintPrivacy => "Does this expose what should be protected?"
  | LensType.TransparencyContestability => "Can the human understand why this happened and contest it?"
  | LensType.AccountabilityOwnership => "Who approved this, who can stop it, and who answers for it?"

/-- Modelled from the spec: `default_pass_finding` of the missing
`lenses/mod.rs`.  The spec (§4.1.6) pins its state to `Pass` with reduced
confidence in the range 0.5 to 0.7; the confidence value is therefore a
parameter `dpc` of the embedding. -/
def default_pass_finding (dpc : ℚ) (lens : LensType) : LensFinding :=
  { lens := some lens
    question_asked := some (question lens)
    state := LensState.Pass
    rules_evaluated := []
    confidence := dpc }

/-- `FRUSTRATION_KEYWORDS` (`boundaries.rs`). -/
def FRUSTRATION_KEYWORDS : List String :=
  ["frustrated", "angry", "furious", "annoyed", "upset",
   "terrible", "awful", "horrible", "worst", "unacceptable",
   "ridiculous", "outrageous", "disgusted", "fed up"]

/-- `LEGAL_KEYWORDS` (`boundaries.rs`). -/
def LEGAL_KEYWORDS : List String :=
  ["lawyer", "attorney", "legal", "lawsuit", "sue",
   "court", "litigation", "regulatory", "complaint", "law"]

/-- `MEDICAL_KEYWORDS` (`boundaries.rs`). -/
def MEDICAL_KEYWORDS : List String :=
  ["symptom", "doctor", "hospital", "medicine", "medical",
   "diagnosis", "treatment", "prescription", "health", "sick"]

namespace BoundariesLens

/-- `BoundariesLens::check_keywords` (`boundaries.rs`): any keyword occurs
in the lowercased content. -/
def check_keywords (content : String) (keywords : List String) : Bool :=
  let lower := lowerStr content
  keywords.any (fun kw => containsStr lower kw)

/-- `BoundariesLens::check_phrase` (`boundaries.rs`): byte range of the
first lowercased occurrence of a phrase. -/
def check_phrase (content phrase : String) : Option (Nat × Nat) :=
  (findSubPos (lowerStr content).data (lowerStr phrase).data).map
    (fun start => (start, start + strLen phrase))

/-- One iteration of the `invalidated_by` loop of
`BoundariesLens::evaluate` (`boundaries.rs`): returns the rule evaluations
pushed for this rule, the blocking violation when the iteration hits
`break`, and the updated escalation reason. -/
def invalidStep (det : Detectors) (content : String) (esc : Option String)
    (rule : Rule) :
    List RuleEvaluation × Option (String × String × List Evidence) × Option String :=
  match (if containsStr (lowerStr rule.rule) "pii" ||
            containsStr (lowerStr rule.rule) "personal"
         then det.check_pii content else []) with
  | (pii_type, start, fin) :: _ =>
    let evidence := [Evidence.from_output (pii_type ++ " exposed in response") start fin]
    ([{ rule_id := rule.id, rule_text := some rule.rule,
        result := RuleResult.Violated, evidence := evidence,
        rationale := some (pii_type ++ " found at position " ++ toString start
          ++ ":" ++ toString fin) }],
     some (rule.id, rule.rule, evidence), esc)
  | [] =>
    match (if containsStr (lowerStr rule.rule) "credential" ||
              containsStr (lowerStr rule.rule) "secret"
           then det.check_secrets content else []) with
    | (secret_type, start, fin) :: _ =>
      let evidence := [Evidence.from_output (secret_type ++ " exposed") start fin]
      ([{ rule_id := rule.id, rule_text := some rule.rule,
          result := RuleResult.Violated, evidence := evidence,
          rationale := some (secret_type ++ " found at position " ++ toString start
            ++ ":" ++ toString fin) }],
       some (rule.id, rule.rule, evidence), esc)
    | [] =>
      if containsStr (lowerStr rule.rule) "medical" &&
          containsStr (lowerStr rule.rule) "advice" &&
          check_keywords content MEDICAL_KEYWORDS then
        let evidence := [Evidence.from_output "Medical-related content detected" 0
          (min (strLen content) 100)]
        let esc' := if esc.isNone
          then some ("Possible medical content detected (rule " ++ rule.id ++ ")")
          else esc
        ([{ rule_id := rule.id, rule_text := some rule.rule,
            result := RuleResult.Uncertain, evidence := evidence,
            rationale := some "Content may contain medical advice" }],
         none, esc')
      else
        if esc.isNone then
          ([{ rule_id := rule.id, rule_text := some rule.rule,
              result := RuleResult.Satisfied, evidence := [],
              rationale := none }], none, esc)
        else ([], none, esc)

/-- The `invalidated_by` loop of `BoundariesLens::evaluate`
(`boundaries.rs`), with its early `break` on the first blocking match. -/
def invalidLoop (det : Detectors) (content : String) :
    List Rule → Option String →
    List RuleEvaluation × Option (String × String × List Evidence) × Option String
  | [], esc => ([], none, esc)
  | r :: rs, esc =>
    let step := invalidStep det content esc r
    match step.2.1 with
    | some b => (step.1, some b, step.2.2)
    | none =>
      let rest := invalidLoop det content rs step.2.2
      (step.1 ++ rest.1, rest.2.1, rest.2.2)

/-- The `human_phrases` table inside `BoundariesLens::evaluate`
(`boundaries.rs`). -/
def human_phrases : List String :=
  ["talk to a human", "speak to a person", "real person",
   "human agent", "customer service", "speak to someone"]

/-- First context entry (with its index) containing a phrase, as scanned by
the inner context loop of the human-request check (`boundaries.rs`). -/
def firstPhraseMatch : List String → String → Nat → Option (Nat × Nat × Nat)
  | [], _, _ => none
  | ctx :: rest, phrase, idx =>
    match check_phrase ctx phrase with
    | some (s, e) => some (idx, s, e)
    | none => firstPhraseMatch rest phrase (idx + 1)

/-- One iteration of the `must_escalate_when` loop of
`BoundariesLens::evaluate` (`boundaries.rs`). -/
def escalateStep (content : String) (context : List String) (esc : Option String)
    (rule : Rule) : List RuleEvaluation × Option String :=
  let rule_lower := lowerStr rule.rule
  let legal : List RuleEvaluation × Option String :=
    if containsStr rule_lower "legal" || containsStr rule_lower "compliance" then
      if check_keywords content LEGAL_KEYWORDS ||
          context.any (fun c => check_keywords c LEGAL_KEYWORDS) then
        ([{ rule_id := rule.id, rule_text := some rule.rule,
            result := RuleResult.Uncertain, evidence := [],
            rationale := some "Legal/compliance topic detected" }],
         if esc.isNone
           then some ("Legal/compliance topic detected (rule " ++ rule.id ++ ")")
           else esc)
      else ([], esc)
    else ([], esc)
  let human :=
    if containsStr rule_lower "human" && containsStr rule_lower "request" then
      human_phrases.foldl
        (fun (acc : List RuleEvaluation × Option String) phrase =>
          match firstPhraseMatch context phrase 0 with
          | some (idx, s, e) =>
            let ev : RuleEvaluation :=
              { rule_id := rule.id, rule_text := some rule.rule,
                result := RuleResult.Uncertain,
                evidence := [Evidence.from_context "Customer requested human agent" idx s e],
                rationale := some "Customer explicitly requested human" }
            (acc.1 ++ [ev],
             if acc.2.isNone
               then some ("Customer explicitly requested human agent (rule "
                 ++ rule.id ++ ")")
               else acc.2)
          | none => acc)
        ([], legal.2)
    else ([], legal.2)
  (legal.1 ++ human.1, human.2)

/-- First context entry (with its index) matching a keyword table, as
scanned by the frustration check (`boundaries.rs`). -/
def firstKeywordCtx : List String → List String → Nat → Option (Nat × String)
  | [], _, _ => none
  | ctx :: rest, keywords, idx =>
    if check_keywords ctx keywords then some (idx, ctx)
    else firstKeywordCtx rest keywords (idx + 1)

/-- One iteration of the `must_pause_when` loop of
`BoundariesLens::evaluate` (`boundaries.rs`). -/
def pauseStep (context : List String) (esc : Option String) (rule : Rule) :
    List RuleEvaluation × Option String :=
  let rule_lower := lowerStr rule.rule
  if containsStr rule_lower "frustrat" || containsStr rule_lower "anger" then
    match firstKeywordCtx context FRUSTRATION_KEYWORDS 0 with
    | some (idx, ctx) =>
      ([{ rule_id := rule.id, rule_text := some rule.rule,
          result := RuleResult.Uncertain,
          evidence := [Evidence.from_context "Customer frustration detected" idx 0
            (min (strLen ctx) 50)],
          rationale := some "Frustration keywords detected in context" }],
       if esc.isNone
         then some ("Customer frustration detected (rule " ++ rule.id ++ ")")
         else esc)
    | none => ([], esc)
  else ([], esc)

/-- Fold a per-rule step (evaluations, escalation reason) over a rule
list, accumulating pushed evaluations in order. -/
def accumLoop (step : Option String → Rule → List RuleEvaluation × Option String) :
    List Rule → Option String → List RuleEvaluation × Option String
  | [], esc => ([], esc)
  | r :: rs, esc =>
    let s := step esc r
    let rest := accumLoop step rs s.2
    (s.1 ++ rest.1, rest.2)

/-- `calculate_confidence` (`boundaries.rs`). -/
def calculate_confidence (rules : List RuleEvaluation) : ℚ :=
  if rules.isEmpty then 0.5
  else
    let c := rules.foldl
      (fun confidence rule =>
        match rule.result with
        | RuleResult.Satisfied =>
          confidence - (match rule.evidence.length with
            | 0 => 0.05
            | 1 => 0.02
            | _ => 0.01)
        | RuleResult.Uncertain => confidence - 0.15
        | _ => confidence)
      1
    max 0 (min c 1)

/-- `BoundariesLens::evaluate` (`boundaries.rs`). -/
def evaluate (det : Detectors) (request : EvaluationRequest) : LensFinding :=
  let contract := request.contract
  let content := request.output.content
  let context := request.context.getD []
  let inv := invalidLoop det content contract.boundaries.invalidated_by none
  match inv.2.1 with
  | some (rule_id, rule_text, _evidence) =>
    { lens := some LensType.BoundariesSafety
      question_asked := some (question LensType.BoundariesSafety)
      state := LensState.Blocked (rule_id ++ ": " ++ rule_text)
      rules_evaluated := inv.1
      confidence := 0.98 }
  | none =>
    let escL := accumLoop (escalateStep content context)
      contract.boundaries.must_escalate_when inv.2.2
    let pauseL := accumLoop (pauseStep context)
      contract.boundaries.must_pause_when escL.2
    let rules_evaluated := inv.1 ++ escL.1 ++ pauseL.1
    { lens := some LensType.BoundariesSafety
      question_asked := some (question LensType.BoundariesSafety)
      state := match pauseL.2 with
        | some reason => LensState.Escalate reason
        | none => LensState.Pass
      rules_evaluated := rules_evaluated
      confidence := calculate_confidence rules_evaluated }

end BoundariesLens

/-- The rule sub-categories of the Dignity lens (`DignityCategory` in
`dignity.rs`). -/
inductive DignityCategory
  | Dismissive
  | Pressure
  | EscalationPath
  | Exclusion
  | General
  deriving DecidableEq, Repr

namespace DignityLens

/-- `DignityLens::categorize_rule` (`dignity.rs`). -/
def categorize_rule (rule_text : String) : DignityCategory :=
  let lower := lowerStr rule_text
  if containsStr lower "dismiss" || containsStr lower "minimize" then
    DignityCategory.Dismissive
  else if containsStr lower "pressure" || containsStr lower "coerce" then
    DignityCategory.Pressure
  else if containsStr lower "escalat" || containsStr lower "human" ||
      containsStr lower "path" then
    DignityCategory.EscalationPath
  else if containsStr lower "assum" || containsStr lower "capabilit" then
    DignityCategory.Exclusion
  else
    DignityCategory.General

/-- One iteration of the dignity-rule loop of `DignityLens::evaluate`
(`dignity.rs`): the evaluation pushed for this rule, plus the blocking and
escalation contributions the iteration would record when the respective
accumulator is still empty. -/
def dignityStep (det : Detectors) (content : String) (rule : Rule) :
    RuleEvaluation × Option (String × String × List Evidence) × Option String :=
  match categorize_rule rule.rule with
  | DignityCategory.Dismissive =>
    match det.check_dismissive content with
    | (pattern, s, e) :: _ =>
      let evidence := [Evidence.from_output ("Dismissive language: " ++ pattern) s e]
      ({ rule_id := rule.id, rule_text := some rule.rule,
         result := RuleResult.Violated, evidence := evidence,
         rationale := some ("Dismissive pattern \x27" ++ pattern
           ++ "\x27 found at position " ++ toString s ++ ":" ++ toString e) },
       some (rule.id, rule.rule, evidence), none)
    | [] =>
      ({ rule_id := rule.id, rule_text := some rule.rule,
         result := RuleResult.Satisfied, evidence := [],
         rationale := some "No dismissive language detected" }, none, none)
  | DignityCategory.Pressure =>
    match det.check_pressure content with
    | (pattern, s, e) :: _ =>
      let evidence := [Evidence.from_output ("Pressure language: " ++ pattern) s e]
      if det.has_human_escalation content then
        ({ rule_id := rule.id, rule_text := some rule.rule,
           result := RuleResult.Uncertain, evidence := evidence,
           rationale := some ("Pressure pattern \x27" ++ pattern
             ++ "\x27 found, but escalation path available") },
         none,
         some ("Pressure language detected with escalation path (rule " ++ rule.id ++ ")"))
      else
        ({ rule_id := rule.id, rule_text := some rule.rule,
           result := RuleResult.Violated, evidence := evidence,
           rationale := some ("Pressure pattern \x27" ++ pattern
             ++ "\x27 found without escalation path") },
         some (rule.id, rule.rule, evidence), none)
    | [] =>
      ({ rule_id := rule.id, rule_text := some rule.rule,
         result := RuleResult.Satisfied, evidence := [],
         rationale := some "No pressure language detected" }, none, none)
  | DignityCategory.EscalationPath =>
    if det.has_human_escalation content then
      ({ rule_id := rule.id, rule_text := some rule.rule,
         result := RuleResult.Satisfied, evidence := [],
         rationale := some "Human escalation path preserved" }, none, none)
    else
      ({ rule_id := rule.id, rule_text := some rule.rule,
         result := RuleResult.Uncertain, evidence := [],
         rationale := some "No clear escalation path to human detected" },
       none,
       some ("No human escalation path detected (rule " ++ rule.id ++ ")"))
  | DignityCategory.Exclusion =>
    match det.check_exclusion content with
    | (pattern, s, e) :: _ =>
      let evidence := [Evidence.from_output ("Exclusion pattern: " ++ pattern) s e]
      ({ rule_id := rule.id, rule_text := some rule.rule,
         result := RuleResult.Uncertain, evidence := evidence,
         rationale := some ("Potential exclusion pattern \x27" ++ pattern
           ++ "\x27 detected") },
       none,
       some ("Potential exclusion pattern detected (rule " ++ rule.id ++ ")"))
    | [] =>
      ({ rule_id := rule.id, rule_text := some rule.rule,
         result := RuleResult.Satisfied, evidence := [],
         rationale := some "No exclusion patterns detected" }, none, none)
  | DignityCategory.General =>
    let has_negative := !(det.check_dismissive content).isEmpty ||
      !(det.check_pressure content).isEmpty
    let has_positive := det.has_empathy content
    if has_negative && !has_positive then
      ({ rule_id := rule.id, rule_text := some rule.rule,
         result := RuleResult.Uncertain, evidence := [],
         rationale := some "Negative patterns present without empathy" },
       none,
       some ("Dignity concern detected (rule " ++ rule.id ++ ")"))
    else
      ({ rule_id := rule.id, rule_text := some rule.rule,
         result := RuleResult.Satisfied, evidence := [],
         rationale := if has_positive
           then some "Empathetic language present"
           else some "No dignity violations detected" }, none, none)

/-- The dignity-rule loop of `DignityLens::evaluate` (`dignity.rs`): every
rule is processed (no early exit); the first blocking and first escalation
contributions are retained. -/
def dignityLoop (det : Detectors) (content : String) :
    List Rule → Option (String × String × List Evidence) → Option String →
    List RuleEvaluation × Option (String × String × List Evidence) × Option String
  | [], blk, esc => ([], blk, esc)
  | r :: rs, blk, esc =>
    let step := dignityStep det content r
    let blk' := if blk.isNone then step.2.1.or blk else blk
    let esc' := if esc.isNone then step.2.2.or esc else esc
    let rest := dignityLoop det content rs blk' esc'
    (step.1 :: rest.1, rest.2.1, rest.2.2)

/-- `calculate_confidence` (`dignity.rs`). -/
def calculate_confidence (rules : List RuleEvaluation) : ℚ :=
  if rules.isEmpty then 0.5
  else
    let c := rules.foldl
      (fun confidence rule =>
        match rule.result with
        | RuleResult.Satisfied =>
          confidence - (match rule.evidence.length with
            | 0 => 0.05
            | 1 => 0.02
            | _ => 0.01)
        | RuleResult.Uncertain => confidence - 0.15
        | _ => confidence)
      1
    max 0 (min c 1)

/-- `DignityLens::evaluate` (`dignity.rs`). -/
def evaluate (det : Detectors) (request : EvaluationRequest) : LensFinding :=
  let contract := request.contract
  let content := request.output.content
  let dignity_rules := contract.dignity_rules
  if dignity_rules.isEmpty then
    { lens := some LensType.DignityInclusion
      question_asked := some (question LensType.DignityInclusion)
      state := LensState.Pass
      rules_evaluated := []
      confidence := 0.6 }
  else
    let run := dignityLoop det content dignity_rules none none
    match run.2.1 with
    | some (rule_id, rule_text, _evidence) =>
      { lens := some LensType.DignityInclusion
        question_asked := some (question LensType.DignityInclusion)
        state := LensState.Blocked (rule_id ++ ": " ++ rule_text)
        rules_evaluated := run.1
        confidence := 0.92 }
    | none =>
      { lens := some LensType.DignityInclusion
        question_asked := some (question LensType.DignityInclusion)
        state := match run.2.2 with
          | some reason => LensState.Escalate reason
          | none => LensState.Pass
        rules_evaluated := run.1
        confidence := calculate_confidence run.1 }

end DignityLens

namespace RestraintLens

/-- `RestraintLens::evaluate` (`restraint.rs`): a Phase-1 placeholder that
passes, at the modelled default confidence when no restraint rules apply
and at 0.70 otherwise. -/
def evaluate (dpc : ℚ) (request : EvaluationRequest) : LensFinding :=
  if request.contract.restraint_rules.isEmpty then
    default_pass_finding dpc LensType.RestraintPrivacy
  else
    { lens := some LensType.RestraintPrivacy
      question_asked := some (question LensType.RestraintPrivacy)
      state := LensState.Pass
      rules_evaluated := []
      confidence := 0.70 }

end RestraintLens

/-- The fit-criterion sub-categories of the Transparency lens
(`FitCategory` in `transparency.rs`). -/
inductive FitCategory
  | Citation
  | AddressesQuestion
  | NextSteps
  | Accuracy
  | Language
  | General
  deriving DecidableEq, Repr

namespace TransparencyLens

/-- `TransparencyLens::check_uncited_claims` (`transparency.rs`): claim
matches are only reported when no citation marker is present. -/
def check_uncited_claims (det : Detectors) (content : String) :
    List (String × Nat × Nat) :=
  if det.has_citations content then [] else det.claim_matches content

/-- `TransparencyLens::categorize_rule` (`transparency.rs`). -/
def categorize_rule (rule_text : String) : FitCategory :=
  let lower := lowerStr rule_text
  if containsStr lower "cite" || containsStr lower "source" ||
      containsStr lower "reference" then
    FitCategory.Citation
  else if containsStr lower "address" || containsStr lower "question" ||
      containsStr lower "answer" then
    FitCategory.AddressesQuestion
  else if containsStr lower "next step" || containsStr lower "action" ||
      containsStr lower "clear" then
    FitCategory.NextSteps
  else if containsStr lower "accurat" || containsStr lower "correct" ||
      containsStr lower "true" then
    FitCategory.Accuracy
  else if containsStr lower "languag" || containsStr lower "audience" ||
      containsStr lower "appropriate" then
    FitCategory.Language
  else
    FitCategory.General

/-- One iteration of the fit-criteria loop of `TransparencyLens::evaluate`
(`transparency.rs`): the evaluation pushed for this rule plus the
escalation contribution recorded when the accumulator is still empty. -/
def fitStep (det : Detectors) (content : String) (rule : Rule) :
    RuleEvaluation × Option String :=
  match categorize_rule rule.rule with
  | FitCategory.Citation =>
    match check_uncited_claims det content with
    | (claim_type, s, e) :: _ =>
      ({ rule_id := rule.id, rule_text := some rule.rule,
         result := RuleResult.Uncertain,
         evidence := [Evidence.from_output ("Uncited " ++ claim_type) s e],
         rationale := some ("Found " ++ claim_type ++ " without citation at position "
           ++ toString s ++ ":" ++ toString e) },
       some ("Uncited claims detected (rule " ++ rule.id ++ ")"))
    | [] =>
      if det.has_citations content then
        ({ rule_id := rule.id, rule_text := some rule.rule,
           result := RuleResult.Satisfied, evidence := [],
           rationale := some "Citations present in output" }, none)
      else
        ({ rule_id := rule.id, rule_text := some rule.rule,
           result := RuleResult.Satisfied, evidence := [],
           rationale := some "No claims requiring citation detected" }, none)
  | FitCategory.AddressesQuestion =>
    if det.addresses_question content then
      ({ rule_id := rule.id, rule_text := some rule.rule,
         result := RuleResult.Satisfied, evidence := [],
         rationale := some "Output appears to address the question" }, none)
    else
      ({ rule_id := rule.id, rule_text := some rule.rule,
         result := RuleResult.Uncertain, evidence := [],
         rationale := some "Cannot confirm output addresses original question" },
       some ("Cannot confirm question is addressed (rule " ++ rule.id ++ ")"))
  | FitCategory.NextSteps =>
    if det.has_next_steps content then
      ({ rule_id := rule.id, rule_text := some rule.rule,
         result := RuleResult.Satisfied, evidence := [],
         rationale := some "Next steps guidance present" }, none)
    else
      ({ rule_id := rule.id, rule_text := some rule.rule,
         result := RuleResult.Uncertain, evidence := [],
         rationale := some "No clear next steps provided" },
       some ("No clear next steps provided (rule " ++ rule.id ++ ")"))
  | FitCategory.Accuracy =>
    let has_claims := !(check_uncited_claims det content).isEmpty
    let has_hedging := det.has_explicit_assumptions content
    if has_claims && !has_hedging && !det.has_citations content then
      ({ rule_id := rule.id, rule_text := some rule.rule,
         result := RuleResult.Uncertain, evidence := [],
         rationale := some "Claims made without citations or hedging" },
       some ("Accuracy cannot be verified (rule " ++ rule.id ++ ")"))
    else
      ({ rule_id := rule.id, rule_text := some rule.rule,
         result := RuleResult.Satisfied, evidence := [],
         rationale := some "No obvious accuracy concerns" }, none)
  | FitCategory.Language =>
    let has_jargon := containsStr content "TL;DR" || containsStr content "IMHO" ||
      containsStr content "FYI"
    let has_informal := containsStr content "gonna" || containsStr content "wanna" ||
      containsStr content "kinda"
    if has_jargon || has_informal then
      ({ rule_id := rule.id, rule_text := some rule.rule,
         result := RuleResult.Uncertain, evidence := [],
         rationale := some "Informal language detected" },
       some ("Language may not be appropriate (rule " ++ rule.id ++ ")"))
    else
      ({ rule_id := rule.id, rule_text := some rule.rule,
         result := RuleResult.Satisfied, evidence := [],
         rationale := some "Language appears appropriate" }, none)
  | FitCategory.General =>
    let has_contestability := det.has_contestability content
    match det.check_hidden_assumptions content with
    | (pattern, s, e) :: _ =>
      if !has_contestability then
        ({ rule_id := rule.id, rule_text := some rule.rule,
           result := RuleResult.Uncertain,
           evidence := [Evidence.from_output ("Hidden assumption: " ++ pattern) s e],
           rationale := some "Hidden assumptions without contestability path" },
         some ("Transparency concern (rule " ++ rule.id ++ ")"))
      else
        ({ rule_id := rule.id, rule_text := some rule.rule,
           result := RuleResult.Satisfied, evidence := [],
           rationale := some "No transparency concerns detected" }, none)
    | [] =>
      ({ rule_id := rule.id, rule_text := some rule.rule,
         result := RuleResult.Satisfied, evidence := [],
         rationale := some "No transparency concerns detected" }, none)

/-- The fit-criteria loop of `TransparencyLens::evaluate`
(`transparency.rs`). -/
def fitLoop (det : Detectors) (content : String) :
    List Rule → Option String → List RuleEvaluation × Option String
  | [], esc => ([], esc)
  | r :: rs, esc =>
    let step := fitStep det content r
    let esc' := if esc.isNone then step.2.or esc else esc
    let rest := fitLoop det content rs esc'
    (step.1 :: rest.1, rest.2)

/-- `calculate_confidence` (`transparency.rs`). -/
def calculate_confidence (rules : List RuleEvaluation) : ℚ :=
  if rules.isEmpty then 0.5
  else
    let c := rules.foldl
      (fun confidence rule =>
        match rule.result with
        | RuleResult.Satisfied =>
          confidence - (match rule.evidence.length with
            | 0 => 0.04
            | 1 => 0.02
            | _ => 0.01)
        | RuleResult.Uncertain => confidence - 0.12
        | _ => confidence)
      1
    max 0 (min c 1)

/-- `TransparencyLens::evaluate` (`transparency.rs`). -/
def evaluate (det : Detectors) (request : EvaluationRequest) : LensFinding :=
  let contract := request.contract
  let content := request.output.content
  let fit_criteria := contract.transparency_rules
  if fit_criteria.isEmpty then
    let uncited_claims := check_uncited_claims det content
    let hidden_assumptions := det.check_hidden_assumptions content
    if !uncited_claims.isEmpty && !hidden_assumptions.isEmpty then
      let implicitEval : RuleEvaluation :=
        { rule_id := "IMPLICIT",
          rule_text := some "Implicit transparency check",
          result := RuleResult.Uncertain, evidence := [],
          rationale := some "Output may lack sufficient transparency" }
      { lens := some LensType.TransparencyContestability
        question_asked := some (question LensType.TransparencyContestability)
        state := LensState.Escalate
          "Multiple transparency concerns: uncited claims and hidden assumptions"
        rules_evaluated := [implicitEval]
        confidence := 0.55 }
    else
      { lens := some LensType.TransparencyContestability
        question_asked := some (question LensType.TransparencyContestability)
        state := LensState.Pass
        rules_evaluated := []
        confidence := 0.6 }
  else
    let run := fitLoop det content fit_criteria none
    { lens := some LensType.TransparencyContestability
      question_asked := some (question LensType.TransparencyContestability)
      state := match run.2 with
        | some reason => LensState.Escalate reason
        | none => LensState.Pass
      rules_evaluated := run.1
      confidence := calculate_confidence run.1 }

end TransparencyLens

namespace AccountabilityLens

/-- `AccountabilityLens::evaluate` (`accountability.rs`): validates the
accountability section of the contract itself. -/
def evaluate (request : EvaluationRequest) : LensFinding :=
  let contract := request.contract
  if contract.accountability.answerable_human = "" then
    let acc1Violated : RuleEvaluation :=
      { rule_id := "ACC1",
        rule_text := some "Contract must have answerable_human",
        result := RuleResult.Violated,
        evidence := [Evidence.from_contract "Missing answerable_human"
          "accountability.answerable_human"],
        rationale := some "No accountable human defined" }
    { lens := some LensType.AccountabilityOwnership
      question_asked := some (question LensType.AccountabilityOwnership)
      state := LensState.Blocked "No accountable human defined in contract"
      rules_evaluated := [acc1Violated]
      confidence := 0.99 }
  else
    let acc1 : RuleEvaluation :=
      { rule_id := "ACC1", rule_text := some "Contract must have answerable_human",
        result := RuleResult.Satisfied, evidence := [],
        rationale := some ("Accountable human: "
          ++ contract.accountability.answerable_human) }
    let acc2 : RuleEvaluation × List String :=
      if contract.accountability.escalation_path.isEmpty then
        ({ rule_id := "ACC2", rule_text := some "Contract should have escalation_path",
           result := RuleResult.Uncertain, evidence := [],
           rationale := some "No escalation path defined" },
         ["No escalation path defined"])
      else
        ({ rule_id := "ACC2", rule_text := some "Contract should have escalation_path",
           result := RuleResult.Satisfied, evidence := [],
           rationale := some ("Escalation path has "
             ++ toString contract.accountability.escalation_path.length
             ++ " levels") },
         [])
    let acc3 : RuleEvaluation × List String :=
      if contract.accountability.approved_by.isNone then
        ({ rule_id := "ACC3", rule_text := some "Contract should have approved_by",
           result := RuleResult.Uncertain, evidence := [],
           rationale := some "No approval on record" },
         ["No approval on record"])
      else
        ({ rule_id := "ACC3", rule_text := some "Contract should have approved_by",
           result := RuleResult.Satisfied, evidence := [],
           rationale := none },
         [])
    let issues := acc2.2 ++ acc3.2
    { lens := some LensType.AccountabilityOwnership
      question_asked := some (question LensType.AccountabilityOwnership)
      state := if !issues.isEmpty
        then LensState.Escalate (String.intercalate "; " issues)
        else LensState.Pass
      rules_evaluated := [acc1, acc2.1, acc3.1]
      confidence := if issues.isEmpty then 0.95 else 0.75 }

end AccountabilityLens

namespace Synthesizer

/-- The fixed lens scan order used by both `find_blocked` and
`find_escalate` (`synthesizer.rs`): Dignity, Boundaries, Restraint,
Transparency, Accountability. -/
def checksList (findings : LensFindings) : List (LensType × LensFinding) :=
  [(LensType.DignityInclusion, findings.dignity_inclusion),
   (LensType.BoundariesSafety, findings.boundaries_safety),
   (LensType.RestraintPrivacy, findings.restraint_privacy),
   (LensType.TransparencyContestability, findings.transparency_contestability),
   (LensType.AccountabilityOwnership, findings.accountability_ownership)]

/-- `Synthesizer::find_blocked` (`synthesizer.rs`): the first `Blocked`
lens in scan order; its first `Violated` rule evaluation supplies the rule
fields (with the lens violation message substituted for a missing rule
text), else a synthetic "UNKNOWN" rule. -/
def find_blocked (findings : LensFindings) :
    Option (LensType × String × String × List Evidence) :=
  (checksList findings).findSome? (fun p =>
    match p.2.state with
    | LensState.Blocked violation =>
      match p.2.rules_evaluated.find?
          (fun r => decide (r.result = RuleResult.Violated)) with
      | some rule =>
        some (p.1, rule.rule_id, rule.rule_text.getD violation, rule.evidence)
      | none => some (p.1, "UNKNOWN", violation, [])
    | _ => none)

/-- `Synthesizer::find_escalate` (`synthesizer.rs`): the first `Escalate`
lens in scan order together with its reason. -/
def find_escalate (findings : LensFindings) : Option (LensType × String) :=
  (checksList findings).findSome? (fun p =>
    match p.2.state with
    | LensState.Escalate reason => some (p.1, reason)
    | _ => none)

/-- `Synthesizer::calculate_confidence_from_findings` (`synthesizer.rs`).
The source folds `f64::min` over the five confidences starting from
`f64::INFINITY`, which for five finite values equals their five-way
minimum, then applies `.min(1.0).max(0.0)`. -/
def calculate_confidence_from_findings (findings : LensFindings) : ℚ :=
  max (min (min findings.dignity_inclusion.confidence
    (min findings.boundaries_safety.confidence
      (min findings.restraint_privacy.confidence
        (min findings.transparency_contestability.confidence
          findings.accountability_ownership.confidence)))) 1) 0

/-- `Synthesizer::build_summary` (`synthesizer.rs`). -/
def build_summary (findings : LensFindings) : String :=
  let total_rules :=
    ((checksList findings).map (fun p => p.2.rules_evaluated.length)).sum
  "All contract conditions satisfied. " ++
    (if total_rules > 0 then toString total_rules ++ " rules evaluated. " else "") ++
    "Output may proceed."

/-- `Synthesizer::build_decision_point` (`synthesizer.rs`). -/
def build_decision_point (lens : LensType) (reason : String) : String :=
  match lens with
  | LensType.BoundariesSafety =>
    "Should automation continue or should a human take over? Trigger: " ++ reason
  | LensType.DignityInclusion =>
    "Does this output preserve human dignity? Concern: " ++ reason
  | LensType.RestraintPrivacy =>
    "Is this data exposure appropriate? Concern: " ++ reason
  | LensType.TransparencyContestability =>
    "Can the recipient understand and challenge this? Issue: " ++ reason
  | LensType.AccountabilityOwnership =>
    "Is accountability clear for this automation? Issue: " ++ reason

/-- `Synthesizer::build_options` (`synthesizer.rs`). -/
def build_options (lens : LensType) (_reason : String) : List String :=
  match lens with
  | LensType.BoundariesSafety =>
    ["Continue with automated response - condition is minor",
     "Transfer to human agent - honor the trigger condition",
     "Acknowledge the trigger, then offer human transfer option"]
  | LensType.DignityInclusion =>
    ["Proceed - output preserves dignity adequately",
     "Revise output to address dignity concern",
     "Escalate to human for judgment"]
  | LensType.RestraintPrivacy =>
    ["Proceed - exposure is acceptable for this context",
     "Redact sensitive information before proceeding",
     "Block and notify privacy team"]
  | LensType.TransparencyContestability =>
    ["Proceed - transparency is sufficient",
     "Add clarifying information before proceeding",
     "Escalate for human review"]
  | LensType.AccountabilityOwnership =>
    ["Proceed - accountability is clear enough",
     "Add accountability information to output",
     "Update contract with missing accountability"]

/-- `Synthesizer::synthesize` (`synthesizer.rs`).  `now` models the
`Utc::now()` timestamp taken when the result record is built. -/
def synthesize (findings : LensFindings) (contract : Contract) (now : Nat) :
    EvaluationResult :=
  let accountable_human := contract.accountability.answerable_human
  let confidence := calculate_confidence_from_findings findings
  match find_blocked findings with
  | some (lens_type, rule_id, rule_text, evidence) =>
    { state := State.Blocked
        { lens := lens_type, rule_id := rule_id, rule_text := rule_text,
          evidence := evidence, accountable_human := accountable_human }
      lens_findings := findings
      confidence := confidence
      evaluated_at := now }
  | none =>
    match find_escalate findings with
    | some (lens_type, reason) =>
      { state := State.Escalate reason
          (build_decision_point lens_type reason)
          (build_options lens_type reason)
        lens_findings := findings
        confidence := confidence
        evaluated_at := now }
    | none =>
      { state := State.Proceed (build_summary findings)
        lens_findings := findings
        confidence := confidence
        evaluated_at := now }

end Synthesizer

/-- `ContractError` (`contract/parser.rs`); external error payloads are
modelled as their message strings. -/
inductive ContractError
  | IoError (msg : String)
  | YamlError (msg : String)
  | JsonError (msg : String)
  | ValidationError (msg : String)
  | MissingField (field : String)
  deriving DecidableEq, Repr

/-- `EvaluationError` (`lib.rs`). -/
inductive EvaluationError
  | Contract (err : ContractError)
  | InvalidOutput (msg : String)
  | LensError (msg : String)
  deriving DecidableEq, Repr

/-- `evaluate_with_context` (`lib.rs`): fan-out to the five lenses, fan-in
through the synthesizer.  `det` carries the regex detector families, `dpc`
the modelled default-pass confidence of the restraint lens, and `now` the
evaluation timestamp. -/
def evaluate_with_context (det : Detectors) (dpc : ℚ) (contract : Contract)
    (output : Output) (context : Option (List String))
    (metadata : Option (List (String × String))) (now : Nat) :
    Except EvaluationError EvaluationResult :=
  let request : EvaluationRequest :=
    { contract := contract, output := output, context := context,
      metadata := metadata }
  let dignity_finding := DignityLens.evaluate det request
  let boundaries_finding := BoundariesLens.evaluate det request
  let restraint_finding := RestraintLens.evaluate dpc request
  let transparency_finding := TransparencyLens.evaluate det request
  let accountability_finding := AccountabilityLens.evaluate request
  let findings : LensFindings :=
    { dignity_inclusion := dignity_finding
      boundaries_safety := boundaries_finding
      restraint_privacy := restraint_finding
      transparency_contestability := transparency_finding
      accountability_ownership := accountability_finding }
  Except.ok (Synthesizer.synthesize findings contract now)

/-- `evaluate` (`lib.rs`): the entry point without context or metadata. -/
def evaluate (det : Detectors) (dpc : ℚ) (contract : Contract) (output : Output)
    (now : Nat) : Except EvaluationError EvaluationResult :=
  evaluate_with_context det dpc contract output none none now

/-- `EvidenceValidationError` (`steward-runtime/src/evidence/validator.rs`). -/
inductive EvidenceValidationError
  | PointerOutOfBounds (pointer : String) (actual_length requested_end : Nat)
  | ContextIndexOutOfBounds (pointer : String) (index context_length : Nat)
  | UnknownSource (pointer : String)
  | QuoteMismatch (pointer expected actual : String)
  | InvalidPointerFormat (pointer : String)
  | MissingEvidence (rule_id : String)
  deriving DecidableEq, Repr

/-- Outcome of a Rust function that may return, error, or panic.  `panic`
models an actual Rust panic (here: byte slicing at a non-character
boundary). -/
inductive VOutcome (α : Type)
  | ok (val : α)
  | err (e : EvidenceValidationError)
  | panic
  deriving DecidableEq, Repr

/-- An ASCII word character.  The source regex uses `\w`, which in the
regex crate is Unicode-aware; restricting to ASCII only affects which of
two rejection errors (`InvalidPointerFormat` vs `UnknownSource`) exotic
non-ASCII sources receive, which no property below depends on. -/
def isWordCh (c : Char) : Bool := c.isAlphanum || c = '_'

/-- Numeric value of a decimal digit string, as produced by `usize` parsing
of a regex `\d+` capture (overflow, impossible at the sizes any statement
below touches, is not modelled). -/
def natOfDigits (ds : List Char) : Nat :=
  ds.foldl (fun acc c => 10 * acc + (c.toNat - 48)) 0

/-- Split a character list at the last occurrence of `[`: the part before
and the part after the bracket. -/
def splitAtLastOpen : List Char → Option (List Char × List Char)
  | [] => none
  | c :: cs =>
    match splitAtLastOpen cs with
    | some (pre, suf) => some (c :: pre, suf)
    | none => if c = '[' then some ([], cs) else none

/-- Whether a character list matches the source alternatives of the pointer
regex of `validator.rs`: a dotted word chain or a word followed by a
bracketed index. -/
def sourceOk (cs : List Char) : Bool :=
  if cs.contains '[' then
    match cs.splitOn '[' with
    | [w, rest] =>
      !w.isEmpty && w.all isWordCh &&
        (match rest.getLast? with
         | some ']' =>
           let ds := rest.dropLast
           !ds.isEmpty && ds.all Char.isDigit
         | _ => false)
    | _ => false
  else
    let parts := cs.splitOn '.'
    parts.all (fun p => !p.isEmpty && p.all isWordCh)

/-- Whether a character list matches the terminal range group of the
pointer regex: digits, a colon, digits, a closing bracket. -/
def rangeMatch (cs : List Char) : Option (Nat × Nat) :=
  match cs.splitOn ':' with
  | [ds1, rest] =>
    match rest.getLast? with
    | some ']' =>
      let ds2 := rest.dropLast
      if !ds1.isEmpty && ds1.all Char.isDigit && !ds2.isEmpty && ds2.all Char.isDigit
      then some (natOfDigits ds1, natOfDigits ds2)
      else none
    | _ => none
  | _ => none

/-- The anchored pointer regex of `EvidenceValidator::new`
(`validator.rs`).  Its terminal `[start:end]` group contains no `[`, so it
always begins at the last `[` of a matching string; the part before it
must match one of the two source alternatives. -/
def pointer_match (p : String) : Option (String × Nat × Nat) :=
  match splitAtLastOpen p.data with
  | none => none
  | some (pre, suf) =>
    match rangeMatch suf with
    | none => none
    | some (a, b) => if sourceOk pre then some (String.mk pre, a, b) else none

namespace EvidenceValidator

/-- `EvidenceValidator::parse_pointer` (`validator.rs`): regex match, then
the `start > end` rejection. -/
def parse_pointer (pointer : String) :
    Except EvidenceValidationError (String × Nat × Nat) :=
  match pointer_match pointer with
  | some (source, start, fin) =>
    if start > fin then
      Except.error (EvidenceValidationError.InvalidPointerFormat pointer)
    else
      Except.ok (source, start, fin)
  | none => Except.error (EvidenceValidationError.InvalidPointerFormat pointer)

/-- `EvidenceValidator::parse_context_index` (`validator.rs`).  The source
runs an unanchored search for `context[digits]`; on the grammar-checked
sources this private helper receives (each starting with `context[`), that
search succeeds exactly on the full string. -/
def parse_context_index (source : String) : Except EvidenceValidationError Nat :=
  match source.data.splitOn '[' with
  | [w, rest] =>
    if w = "context".data then
      match rest.getLast? with
      | some ']' =>
        let ds := rest.dropLast
        if !ds.isEmpty && ds.all Char.isDigit then Except.ok (natOfDigits ds)
        else Except.error (EvidenceValidationError.InvalidPointerFormat source)
      | _ => Except.error (EvidenceValidationError.InvalidPointerFormat source)
    else Except.error (EvidenceValidationError.InvalidPointerFormat source)
  | _ => Except.error (EvidenceValidationError.InvalidPointerFormat source)

/-- `EvidenceValidator::validate_pointer` (`validator.rs`). -/
def validate_pointer (output : Output) (context : List String) (pointer : String) :
    Except EvidenceValidationError Unit :=
  match parse_pointer pointer with
  | Except.error e => Except.error e
  | Except.ok (source, _start, fin) =>
    if source = "output.content" || source = "output" then
      if fin > strLen output.content then
        Except.error (EvidenceValidationError.PointerOutOfBounds pointer
          (strLen output.content) fin)
      else Except.ok ()
    else if source.startsWith "context[" then
      match parse_context_index source with
      | Except.error e => Except.error e
      | Except.ok index =>
        if index ≥ context.length then
          Except.error (EvidenceValidationError.ContextIndexOutOfBounds pointer
            index context.length)
        else
          let ctx := context.getD index ""
          if fin > strLen ctx then
            Except.error (EvidenceValidationError.PointerOutOfBounds pointer
              (strLen ctx) fin)
          else Except.ok ()
    else Except.error (EvidenceValidationError.UnknownSource pointer)

/-- `EvidenceValidator::extract_slice` (`validator.rs`).  The byte slices
`self.output.content[range]` and `self.context[index][range]` panic when an
end of the range is not a character boundary; that panic is the `panic`
outcome. -/
def extract_slice (output : Output) (context : List String) (pointer : String) :
    VOutcome String :=
  match parse_pointer pointer with
  | Except.error e => VOutcome.err e
  | Except.ok (source, start, fin) =>
    if source = "output.content" || source = "output" then
      if fin > strLen output.content then
        VOutcome.err (EvidenceValidationError.PointerOutOfBounds pointer
          (strLen output.content) fin)
      else
        match byteSlice output.content.data start fin with
        | some cs => VOutcome.ok (String.mk cs)
        | none => VOutcome.panic
    else if source.startsWith "context[" then
      match parse_context_index source with
      | Except.error e => VOutcome.err e
      | Except.ok index =>
        if index ≥ context.length then
          VOutcome.err (EvidenceValidationError.ContextIndexOutOfBounds pointer
            index context.length)
        else
          let ctx := context.getD index ""
          if fin > strLen ctx then
            VOutcome.err (EvidenceValidationError.PointerOutOfBounds pointer
              (strLen ctx) fin)
          else
            match byteSlice ctx.data start fin with
            | some cs => VOutcome.ok (String.mk cs)
            | none => VOutcome.panic
    else VOutcome.err (EvidenceValidationError.UnknownSource pointer)

end EvidenceValidator

/-- Unicode white-space characters, the set recognised by Rust
`char::is_whitespace` (the White_Space property). -/
def isRustWhitespace (c : Char) : Bool :=
  let n := c.toNat
  (0x09 ≤ n && n ≤ 0x0D) || n = 0x20 || n = 0x85 || n = 0xA0 || n = 0x1680 ||
    (0x2000 ≤ n && n ≤ 0x200A) || n = 0x2028 || n = 0x2029 || n = 0x202F ||
    n = 0x205F || n = 0x3000

/-- `normalize_whitespace` (`validator.rs`): split on white-space runs,
drop empty chunks, join with single spaces — collapsing internal runs and
trimming both ends. -/
def normalize_whitespace (s : String) : String :=
  String.mk (List.intercalate " ".data
    ((s.data.splitOnP isRustWhitespace).filter (fun l => !l.isEmpty)))

namespace EvidenceValidator

/-- `EvidenceValidator::validate_quote` (`validator.rs`). -/
def validate_quote (output : Output) (context : List String)
    (pointer quote : String) : VOutcome Unit :=
  match extract_slice output context pointer with
  | VOutcome.err e => VOutcome.err e
  | VOutcome.panic => VOutcome.panic
  | VOutcome.ok actual_slice =>
    if normalize_whitespace actual_slice ≠ normalize_whitespace quote then
      VOutcome.err (EvidenceValidationError.QuoteMismatch pointer quote actual_slice)
    else VOutcome.ok ()

/-- `EvidenceValidator::validate` (`validator.rs`). -/
def validate (output : Output) (context : List String) (evidence : Evidence) :
    VOutcome Unit :=
  match validate_pointer output context evidence.pointer with
  | Except.error e => VOutcome.err e
  | Except.ok _ => validate_quote output context evidence.pointer evidence.claim

end EvidenceValidator

/-- `CircuitBreakerConfig`
(`steward-runtime/src/resilience/circuit_breaker.rs`).  The `u32`
thresholds and the `Duration` are modelled as `Nat` (no property below
approaches the `u32` range). -/
structure CircuitBreakerConfig where
  failure_threshold : Nat
  recovery_timeout : Nat
  success_threshold : Nat
  deriving DecidableEq, Repr

/-- The `Default` instance of `CircuitBreakerConfig`
(`circuit_breaker.rs`): 3 failures, 30 seconds, 2 successes. -/
def CircuitBreakerConfig.default : CircuitBreakerConfig :=
  { failure_threshold := 3, recovery_timeout := 30, success_threshold := 2 }

/-- `CircuitState` (`circuit_breaker.rs`).  `Instant` timestamps are
modelled as `Nat` time values. -/
inductive CircuitState
  | Closed (failures : Nat)
  | Open (opened_at : Nat)
  | HalfOpen (successes : Nat)
  deriving DecidableEq, Repr

/-- `CircuitBreaker` (`circuit_breaker.rs`): the per-lens state map plus
the configuration.  A missing map entry is `none`, exactly as in the
source `HashMap`. -/
structure CircuitBreaker where
  states : LensType → Option CircuitState
  config : CircuitBreakerConfig

namespace CircuitBreaker

/-- `CircuitBreaker::new` (`circuit_breaker.rs`): empty state map. -/
def new (config : CircuitBreakerConfig) : CircuitBreaker :=
  { states := fun _ => none, config := config }

/-- `states.insert(lens, st)` on the state map. -/
def insertState (cb : CircuitBreaker) (lens : LensType) (st : CircuitState) :
    CircuitBreaker :=
  { cb with states := fun l => if l = lens then some st else cb.states l }

/-- `CircuitBreaker::transition_to_half_open` (`circuit_breaker.rs`). -/
def transition_to_half_open (cb : CircuitBreaker) (lens : LensType) :
    CircuitBreaker :=
  match cb.states lens with
  | some (CircuitState.Open _) => insertState cb lens (CircuitState.HalfOpen 0)
  | _ => cb

/-- `CircuitBreaker::is_open` (`circuit_breaker.rs`).  `now` models the
clock read by `Instant::elapsed`; the call can mutate the breaker (the
open-to-half-open transition), so the updated breaker is returned
alongside the answer. -/
def is_open (cb : CircuitBreaker) (lens : LensType) (now : Nat) :
    Bool × CircuitBreaker :=
  match cb.states lens with
  | some (CircuitState.Open opened_at) =>
    if now - opened_at ≥ cb.config.recovery_timeout then
      (false, transition_to_half_open cb lens)
    else (true, cb)
  | some (CircuitState.HalfOpen _) => (false, cb)
  | _ => (false, cb)

/-- `CircuitBreaker::record_success` (`circuit_breaker.rs`). -/
def record_success (cb : CircuitBreaker) (lens : LensType) : CircuitBreaker :=
  match cb.states lens with
  | some (CircuitState.HalfOpen successes) =>
    if successes + 1 ≥ cb.config.success_threshold then
      insertState cb lens (CircuitState.Closed 0)
    else
      insertState cb lens (CircuitState.HalfOpen (successes + 1))
  | some (CircuitState.Closed _) => insertState cb lens (CircuitState.Closed 0)
  | _ => cb

/-- `CircuitBreaker::record_failure` (`circuit_breaker.rs`).  `now` is the
`Instant::now()` stored when the circuit opens. -/
def record_failure (cb : CircuitBreaker) (lens : LensType) (now : Nat) :
    CircuitBreaker :=
  match cb.states lens with
  | some (CircuitState.Closed failures) =>
    if failures + 1 ≥ cb.config.failure_threshold then
      insertState cb lens (CircuitState.Open now)
    else
      insertState cb lens (CircuitState.Closed (failures + 1))
  | some (CircuitState.HalfOpen _) => insertState cb lens (CircuitState.Open now)
  | none => insertState cb lens (CircuitState.Closed 1)
  | some (CircuitState.Open _) => cb

/-- `CircuitBreaker::state` (`circuit_breaker.rs`): a missing entry reads
as `Closed` with zero failures. -/
def state (cb : CircuitBreaker) (lens : LensType) : CircuitState :=
  (cb.states lens).getD (CircuitState.Closed 0)

/-- Record `n` consecutive failures for one lens, all stamped with the
same clock value `t` (the stamp only matters for the failure that opens
the circuit). -/
def recordFailures (cb : CircuitBreaker) (lens : LensType) (t : Nat) :
    Nat → CircuitBreaker
  | 0 => cb
  | n + 1 => record_failure (recordFailures cb lens t n) lens t

end CircuitBreaker

/-! ## Claim-side definitions

These definitions transcribe the vocabulary of the specification claims
(canonical lens order, "first Blocked lens", "minimum of the five
confidences", source resolution); the theorems below compare them with the
source-side definitions above. -/

/-- The canonical lens scan order stated by the spec: Dignity, Boundaries,
Restraint, Transparency, Accountability. -/
def canonicalOrder : List LensType :=
  [LensType.DignityInclusion, LensType.BoundariesSafety,
   LensType.RestraintPrivacy, LensType.TransparencyContestability,
   LensType.AccountabilityOwnership]

/-- The finding a findings record holds for a given lens. -/
def findingFor (f : LensFindings) : LensType → LensFinding
  | LensType.DignityInclusion => f.dignity_inclusion
  | LensType.BoundariesSafety => f.boundaries_safety
  | LensType.RestraintPrivacy => f.restraint_privacy
  | LensType.TransparencyContestability => f.transparency_contestability
  | LensType.AccountabilityOwnership => f.accountability_ownership

/-- Claim side: the first `Blocked` lens in canonical order, with its
violation message. -/
def specFirstBlocked (f : LensFindings) : Option (LensType × String) :=
  canonicalOrder.findSome? (fun lt =>
    match (findingFor f lt).state with
    | LensState.Blocked msg => some (lt, msg)
    | _ => none)

/-- Claim side: the rule fields reported for a blocked lens — taken from
the lens's first rule evaluation whose result is `Violated` (the lens
violation message standing in for an absent rule text), or a synthetic
"UNKNOWN" rule id with the violation message when no such evaluation
exists. -/
def specRuleFields (f : LensFindings) (lt : LensType) (msg : String) :
    String × String × List Evidence :=
  match (findingFor f lt).rules_evaluated.find?
      (fun r => decide (r.result = RuleResult.Violated)) with
  | some r => (r.rule_id, r.rule_text.getD msg, r.evidence)
  | none => ("UNKNOWN", msg, [])

/-- Claim side: the full violation record for the first blocked lens. -/
def specBlockedViolation (c : Contract) (f : LensFindings) (lt : LensType)
    (msg : String) : BoundaryViolation :=
  { lens := lt
    rule_id := (specRuleFields f lt msg).1
    rule_text := (specRuleFields f lt msg).2.1
    evidence := (specRuleFields f lt msg).2.2
    accountable_human := c.accountability.answerable_human }

/-- Claim side: at least one of the five findings reports `Escalate`. -/
def anyEscalateB (f : LensFindings) : Bool :=
  canonicalOrder.any (fun lt =>
    match (findingFor f lt).state with
    | LensState.Escalate _ => true
    | _ => false)

/-- The three verdict kinds, for stating which branch a result falls in
without pinning its payload. -/
inductive StateKind
  | proceed
  | escalate
  | blocked
  deriving DecidableEq, Repr

/-- The kind of a verdict. -/
def State.kind : State → StateKind
  | State.Proceed _ => StateKind.proceed
  | State.Escalate _ _ _ => StateKind.escalate
  | State.Blocked _ => StateKind.blocked

/-! ## Helper lemmas on the synthesizer -/

theorem option_map_findSome? {α β γ : Type} (g : β → γ) (p : α → Option β) :
    ∀ l : List α, (l.findSome? p).map g = l.findSome? (fun a => (p a).map g)
  | [] => rfl
  | a :: l => by
    rcases h : p a with _ | b <;>
      simp [List.findSome?_cons, h, option_map_findSome? g p l]

theorem checksList_eq (f : LensFindings) :
    Synthesizer.checksList f = canonicalOrder.map (fun lt => (lt, findingFor f lt)) :=
  rfl

/-- `find_blocked` agrees with the claim-side scan: the first blocked lens
in canonical order, paired with the rule fields the claim describes. -/
theorem find_blocked_eq_spec (f : LensFindings) :
    Synthesizer.find_blocked f =
      (specFirstBlocked f).map (fun p => (p.1, specRuleFields f p.1 p.2)) := by
  unfold Synthesizer.find_blocked specFirstBlocked
  rw [checksList_eq, List.findSome?_map, option_map_findSome?]
  refine congrFun (congrArg List.findSome? (funext fun lt => ?_)) canonicalOrder
  rcases h : (findingFor f lt).state with _ | reason | msg <;>
    simp only [Function.comp, h, specRuleFields, Option.map_some, Option.map_none] <;>
    rcases hf : (findingFor f lt).rules_evaluated.find?
      (fun r => decide (r.result = RuleResult.Violated)) with _ | r <;>
    simp [hf]

/-- `find_escalate` agrees with the claim-side scan. -/
theorem find_escalate_eq_spec (f : LensFindings) :
    Synthesizer.find_escalate f =
      canonicalOrder.findSome? (fun lt =>
        match (findingFor f lt).state with
        | LensState.Escalate reason => some (lt, reason)
        | _ => none) := by
  unfold Synthesizer.find_escalate
  rw [checksList_eq, List.findSome?_map]
  rfl

/-- `find_escalate` finds a lens exactly when some finding escalates. -/
theorem find_escalate_isSome (f : LensFindings) :
    (Synthesizer.find_escalate f).isSome = anyEscalateB f := by
  rw [find_escalate_eq_spec]
  unfold anyEscalateB
  apply Bool.eq_iff_iff.mpr
  rw [show ((canonicalOrder.findSome? (fun lt =>
      match (findingFor f lt).state with
      | LensState.Escalate reason => some (lt, reason)
      | _ => none)).isSome = true) ↔
      (canonicalOrder.findSome? (fun lt =>
      match (findingFor f lt).state with
      | LensState.Escalate reason => some (lt, reason)
      | _ => none)).isSome from Iff.rfl]
  rw [List.findSome?_isSome_iff, List.any_eq_true]
  constructor
  · rintro ⟨lt, hmem, hsome⟩
    refine ⟨lt, hmem, ?_⟩
    rcases h : (findingFor f lt).state with _ | reason | msg <;> simp [h] at hsome ⊢
  · rintro ⟨lt, hmem, htrue⟩
    refine ⟨lt, hmem, ?_⟩
    rcases h : (findingFor f lt).state with _ | reason | msg <;> simp [h] at htrue ⊢

/-- The confidence of a synthesized result, in every branch. -/
theorem synthesize_confidence (f : LensFindings) (c : Contract) (t : Nat) :
    (Synthesizer.synthesize f c t).confidence =
      Synthesizer.calculate_confidence_from_findings f := by
  unfold Synthesizer.synthesize
  rcases Synthesizer.find_blocked f with _ | ⟨lt, rid, rtxt, ev⟩
  · rcases Synthesizer.find_escalate f with _ | ⟨lt, reason⟩ <;> rfl
  · rfl

/-- Changing only the timestamp argument shifts only `evaluated_at`. -/
theorem synthesize_time_shift (f : LensFindings) (c : Contract) (t1 t2 : Nat) :
    { Synthesizer.synthesize f c t1 with evaluated_at := t2 } =
      Synthesizer.synthesize f c t2 := by
  unfold Synthesizer.synthesize
  rcases Synthesizer.find_blocked f with _ | ⟨lt, rid, rtxt, ev⟩
  · rcases Synthesizer.find_escalate f with _ | ⟨lt, reason⟩ <;> rfl
  · rfl

/-- C1: for every set of five lens findings and every contract,
`synthesize` returns `Blocked` whenever at least one finding is `Blocked`
(the first such lens in the fixed order Dignity, Boundaries, Restraint,
Transparency, Accountability supplies the violation, whose
rule_id/rule_text/evidence come from that lens's first `Violated` rule
evaluation — the lens violation message standing in for an absent rule
text — or from a synthetic "UNKNOWN" rule with the violation message when
no such evaluation exists); with no `Blocked` finding the result is
`Escalate` exactly when some finding escalates, and `Proceed` otherwise. -/
theorem C1_synthesize_precedence (f : LensFindings) (c : Contract) (t : Nat) :
    (match specFirstBlocked f with
     | some (lt, msg) =>
       (Synthesizer.synthesize f c t).state =
         State.Blocked (specBlockedViolation c f lt msg)
     | none =>
       (Synthesizer.synthesize f c t).state.kind =
         (if anyEscalateB f then StateKind.escalate else StateKind.proceed)) := by
  rcases hb : specFirstBlocked f with _ | ⟨lt, msg⟩
  · have hfb : Synthesizer.find_blocked f = none := by
      rw [find_blocked_eq_spec, hb]; rfl
    unfold Synthesizer.synthesize
    rw [hfb]
    rcases he : Synthesizer.find_escalate f with _ | ⟨lt, reason⟩
    · have ha : anyEscalateB f = false := by rw [← find_escalate_isSome, he]; rfl
      simp [ha, State.kind]
    · have ha : anyEscalateB f = true := by rw [← find_escalate_isSome, he]; rfl
      simp [ha, State.kind]
  · rcases hsrf : specRuleFields f lt msg with ⟨rid, rtxt, ev⟩
    have hfb : Synthesizer.find_blocked f = some (lt, rid, rtxt, ev) := by
      rw [find_blocked_eq_spec, hb]; simp [hsrf]
    unfold Synthesizer.synthesize
    rw [hfb]
    simp [specBlockedViolation, hsrf]

/-- C2: the confidence of every synthesized result equals the minimum of
the five lens confidences clamped to the interval from 0 to 1, identically
in the `Proceed`, `Escalate` and `Blocked` branches. -/
theorem C2_confidence_is_clamped_min (f : LensFindings) (c : Contract) (t : Nat) :
    (Synthesizer.synthesize f c t).confidence =
      max 0 (min (min f.dignity_inclusion.confidence
        (min f.boundaries_safety.confidence
          (min f.restraint_privacy.confidence
            (min f.transparency_contestability.confidence
              f.accountability_ownership.confidence)))) 1) := by
  rw [synthesize_confidence]
  unfold Synthesizer.calculate_confidence_from_findings
  exact max_comm _ _

/-- C3: `evaluate_with_context` is deterministic — two calls with
identical contract, output, context and metadata (and fixed detector
tables) return `Ok` results with identical state and confidence, and the
entire results coincide once the `evaluated_at` timestamp is equalised. -/
theorem C3_evaluate_deterministic (det : Detectors) (dpc : ℚ) (c : Contract)
    (o : Output) (ctx : Option (List String))
    (md : Option (List (String × String))) (t1 t2 : Nat) :
    ∃ r1 r2,
      evaluate_with_context det dpc c o ctx md t1 = Except.ok r1 ∧
      evaluate_with_context det dpc c o ctx md t2 = Except.ok r2 ∧
      r1.state = r2.state ∧ r1.confidence = r2.confidence ∧
      { r1 with evaluated_at := t2 } = r2 := by
  refine ⟨_, _, rfl, rfl, ?_, ?_, ?_⟩
  · rw [← synthesize_time_shift _ c t1 t2]
  · rw [← synthesize_time_shift _ c t1 t2]
  · exact synthesize_time_shift _ c t1 t2

/-! ## Helper lemmas on the Dignity and Boundaries lenses -/

theorem findSome?_eq_find?_map {α β : Type} (q : α → Bool) (g : α → β)
    (p : α → Option β) (hp : ∀ a, p a = if q a then some (g a) else none) :
    ∀ l : List α, l.findSome? p = (l.find? q).map g
  | [] => rfl
  | a :: l => by
    rcases hq : q a with _ | _ <;>
      simp [List.findSome?_cons, List.find?_cons, hp a, hq,
        findSome?_eq_find?_map q g p hp l]

/-- The dignity loop pushes exactly one evaluation per rule, in order. -/
theorem dignityLoop_evals (det : Detectors) (content : String) :
    ∀ (rules : List Rule) (blk : Option (String × String × List Evidence))
      (esc : Option String),
      (DignityLens.dignityLoop det content rules blk esc).1 =
        rules.map (fun r => (DignityLens.dignityStep det content r).1)
  | [], _, _ => rfl
  | r :: rs, blk, esc => by
    unfold DignityLens.dignityLoop
    simp [dignityLoop_evals det content rs]

/-- The blocking accumulator of the dignity loop holds its initial value
or else the first blocking contribution of the rules. -/
theorem dignityLoop_blocked (det : Detectors) (content : String) :
    ∀ (rules : List Rule) (blk : Option (String × String × List Evidence))
      (esc : Option String),
      (DignityLens.dignityLoop det content rules blk esc).2.1 =
        blk.or (rules.findSome? (fun r => (DignityLens.dignityStep det content r).2.1))
  | [], blk, _ => by cases blk <;> rfl
  | r :: rs, blk, esc => by
    unfold DignityLens.dignityLoop
    rcases blk with _ | b
    · rcases h : (DignityLens.dignityStep det content r).2.1 with _ | v <;>
        simp [dignityLoop_blocked det content rs, h, List.findSome?_cons]
    · simp [dignityLoop_blocked det content rs, List.findSome?_cons]

/-- The escalation accumulator of the dignity loop holds its initial value
or else the first escalation contribution of the rules. -/
theorem dignityLoop_escalate (det : Detectors) (content : String) :
    ∀ (rules : List Rule) (blk : Option (String × String × List Evidence))
      (esc : Option String),
      (DignityLens.dignityLoop det content rules blk esc).2.2 =
        esc.or (rules.findSome? (fun r => (DignityLens.dignityStep det content r).2.2))
  | [], _, esc => by cases esc <;> rfl
  | r :: rs, blk, esc => by
    unfold DignityLens.dignityLoop
    rcases esc with _ | e
    · rcases h : (DignityLens.dignityStep det content r).2.2 with _ | v <;>
        simp [dignityLoop_escalate det content rs, h, List.findSome?_cons]
    · simp [dignityLoop_escalate det content rs, List.findSome?_cons]

/-- A dignity rule contributes a blocking violation exactly when its
pushed evaluation is `Violated`, and then the contribution carries the
rule id, the rule text and the evaluation's evidence. -/
theorem dignityStep_blocked_eq (det : Detectors) (content : String) (r : Rule) :
    (DignityLens.dignityStep det content r).2.1 =
      (if (DignityLens.dignityStep det content r).1.result = RuleResult.Violated
       then some (r.id, r.rule, (DignityLens.dignityStep det content r).1.evidence)
       else none) := by
  unfold DignityLens.dignityStep
  rcases DignityLens.categorize_rule r.rule <;> dsimp only
  · rcases det.check_dismissive content with _ | ⟨⟨pat, s, e⟩, rest⟩ <;> simp
  · rcases det.check_pressure content with _ | ⟨⟨pat, s, e⟩, rest⟩ <;>
      [skip; rcases det.has_human_escalation content with _ | _] <;> simp
  · rcases det.has_human_escalation content with _ | _ <;> simp
  · rcases det.check_exclusion content with _ | ⟨⟨pat, s, e⟩, rest⟩ <;> simp
  · by_cases hn : (!(det.check_dismissive content).isEmpty ||
        !(det.check_pressure content).isEmpty) && !det.has_empathy content <;>
      simp [hn]

/-- A pressure-categorised rule whose pressure pattern fires without a
human-escalation phrase yields a `Violated` evaluation and a blocking
contribution. -/
theorem dignityStep_pressure_noescal (det : Detectors) (content : String) (r : Rule)
    (hcat : DignityLens.categorize_rule r.rule = DignityCategory.Pressure)
    (hne : det.check_pressure content ≠ [])
    (hesc : det.has_human_escalation content = false) :
    (DignityLens.dignityStep det content r).1.result = RuleResult.Violated := by
  unfold DignityLens.dignityStep
  rw [hcat]
  rcases hp : det.check_pressure content with _ | ⟨⟨pat, s, e⟩, rest⟩
  · exact absurd hp hne
  · simp [hesc]

/-- A pressure-categorised rule whose pressure pattern fires alongside a
human-escalation phrase yields an `Uncertain` evaluation and an
escalation contribution. -/
theorem dignityStep_pressure_escal (det : Detectors) (content : String) (r : Rule)
    (hcat : DignityLens.categorize_rule r.rule = DignityCategory.Pressure)
    (hne : det.check_pressure content ≠ [])
    (hesc : det.has_human_escalation content = true) :
    (DignityLens.dignityStep det content r).1.result = RuleResult.Uncertain ∧
      (DignityLens.dignityStep det content r).2.2 =
        some ("Pressure language detected with escalation path (rule " ++ r.id ++ ")") := by
  unfold DignityLens.dignityStep
  rw [hcat]
  rcases hp : det.check_pressure content with _ | ⟨⟨pat, s, e⟩, rest⟩
  · exact absurd hp hne
  · simp [hesc]

/-- The dignity lens records exactly one evaluation per dignity rule, in
rule order, whatever the lens verdict is. -/
theorem dignity_evaluate_evals (det : Detectors) (req : EvaluationRequest) :
    (DignityLens.evaluate det req).rules_evaluated =
      req.contract.dignity_rules.map
        (fun r => (DignityLens.dignityStep det req.output.content r).1) := by
  unfold DignityLens.evaluate
  by_cases hemp : req.contract.dignity_rules.isEmpty
  · have h0 : req.contract.dignity_rules = [] := List.isEmpty_iff.mp hemp
    simp [hemp, h0]
  · rw [Bool.not_eq_true] at hemp
    simp only [hemp, Bool.false_eq_true, if_false]
    rcases hrun : (DignityLens.dignityLoop det req.output.content
        req.contract.dignity_rules none none).2.1 with _ | v <;>
      simp only [hrun] <;>
      rw [← dignityLoop_evals det req.output.content
        req.contract.dignity_rules none none]

/-- The state of the dignity lens, when at least one dignity rule exists:
blocked on the first blocking contribution, else escalating on the first
escalation contribution, else passing. -/
theorem dignity_evaluate_state (det : Detectors) (req : EvaluationRequest)
    (hne : req.contract.dignity_rules ≠ []) :
    (DignityLens.evaluate det req).state =
      (match req.contract.dignity_rules.findSome?
          (fun r => (DignityLens.dignityStep det req.output.content r).2.1) with
       | some (rule_id, rule_text, _) =>
         LensState.Blocked (rule_id ++ ": " ++ rule_text)
       | none =>
         match req.contract.dignity_rules.findSome?
             (fun r => (DignityLens.dignityStep det req.output.content r).2.2) with
         | some reason => LensState.Escalate reason
         | none => LensState.Pass) := by
  unfold DignityLens.evaluate
  have hemp : req.contract.dignity_rules.isEmpty = false := by
    rcases h0 : req.contract.dignity_rules with _ | _
    · exact absurd h0 hne
    · rfl
  simp only [hemp, Bool.false_eq_true, if_false]
  have hb := dignityLoop_blocked det req.output.content
    req.contract.dignity_rules none none
  have he := dignityLoop_escalate det req.output.content
    req.contract.dignity_rules none none
  rw [Option.none_or] at hb he
  rcases hrun : (DignityLens.dignityLoop det req.output.content
      req.contract.dignity_rules none none).2.1 with _ | ⟨rid, rtext, rev⟩
  · rw [hrun] at hb
    rw [← hb]
    rcases hrun2 : (DignityLens.dignityLoop det req.output.content
        req.contract.dignity_rules none none).2.2 with _ | reason <;>
      rw [hrun2] at he <;> rw [← he]
  · rw [hrun] at hb
    rw [← hb]

/-- Each iteration of the boundaries `invalidated_by` loop pushes at most
one evaluation, and records a blocking violation exactly when that
evaluation is `Violated`. -/
theorem invalidStep_cases (det : Detectors) (content : String)
    (esc : Option String) (r : Rule) :
    (∃ ev : RuleEvaluation,
       (BoundariesLens.invalidStep det content esc r).1 = [ev] ∧
       ((BoundariesLens.invalidStep det content esc r).2.1.isSome ↔
         ev.result = RuleResult.Violated)) ∨
    ((BoundariesLens.invalidStep det content esc r).1 = [] ∧
     (BoundariesLens.invalidStep det content esc r).2.1 = none) := by
  unfold BoundariesLens.invalidStep
  rcases h1 : (if containsStr (lowerStr r.rule) "pii" ||
      containsStr (lowerStr r.rule) "personal"
      then det.check_pii content else []) with _ | ⟨⟨pt, ps, pe⟩, prest⟩
  · rcases h2 : (if containsStr (lowerStr r.rule) "credential" ||
        containsStr (lowerStr r.rule) "secret"
        then det.check_secrets content else []) with _ | ⟨⟨st, ss, se⟩, srest⟩
    · by_cases h3 : (containsStr (lowerStr r.rule) "medical" &&
          containsStr (lowerStr r.rule) "advice" &&
          BoundariesLens.check_keywords content MEDICAL_KEYWORDS) = true
      · simp only [h3, if_true]
        left
        refine ⟨_, rfl, ?_⟩
        simp
      · rw [Bool.not_eq_true] at h3
        simp only [h3, Bool.false_eq_true, if_false]
        by_cases h4 : esc.isNone = true
        · simp only [h4, if_true]
          left
          refine ⟨_, rfl, ?_⟩
          simp
        · rw [Bool.not_eq_true] at h4
          simp only [h4, Bool.false_eq_true, if_false]
          right
          exact ⟨by simp, by simp⟩
    · left
      refine ⟨_, rfl, ?_⟩
      simp
  · left
    refine ⟨_, rfl, ?_⟩
    simp

/-- When the boundaries `invalidated_by` loop reports a blocking
violation, the recorded evaluations end at the violating one: the last
evaluation is the only `Violated` one, and there is at most one
evaluation per rule seen so far. -/
theorem invalidLoop_blocked_structure (det : Detectors) (content : String) :
    ∀ (rules : List Rule) (esc : Option String)
      (b : String × String × List Evidence),
      (BoundariesLens.invalidLoop det content rules esc).2.1 = some b →
      ∃ pre last,
        (BoundariesLens.invalidLoop det content rules esc).1 = pre ++ [last] ∧
        last.result = RuleResult.Violated ∧
        (∀ x ∈ pre, x.result ≠ RuleResult.Violated) ∧
        (BoundariesLens.invalidLoop det content rules esc).1.length ≤ rules.length
  | [], esc, b => by intro h; exact absurd h (by simp [BoundariesLens.invalidLoop])
  | r :: rs, esc, b => by
    intro h
    rcases hs : (BoundariesLens.invalidStep det content esc r).2.1 with _ | b'
    · rcases invalidStep_cases det content esc r with ⟨ev, hev, hiff⟩ | ⟨hev, _⟩
      · have hnv : ev.result ≠ RuleResult.Violated := by
          intro hv
          have := hiff.mpr hv
          rw [hs] at this
          exact absurd this (by simp)
        have hrec := invalidLoop_blocked_structure det content rs
          (BoundariesLens.invalidStep det content esc r).2.2 b
        simp only [BoundariesLens.invalidLoop, hs] at h ⊢
        obtain ⟨pre, last, h1, h2, h3, h4⟩ := hrec h
        refine ⟨ev :: pre, last, ?_, h2, ?_, ?_⟩
        · simp [hev, h1]
        · intro x hx
          rcases List.mem_cons.mp hx with rfl | hx
          · exact hnv
          · exact h3 x hx
        · simp only [hev, h1, List.length_append, List.length_cons,
            List.length_nil] at h4 ⊢
          omega
      · have hrec := invalidLoop_blocked_structure det content rs
          (BoundariesLens.invalidStep det content esc r).2.2 b
        simp only [BoundariesLens.invalidLoop, hs] at h ⊢
        obtain ⟨pre, last, h1, h2, h3, h4⟩ := hrec h
        refine ⟨pre, last, ?_, h2, h3, ?_⟩
        · simp [hev, h1]
        · simp only [hev, h1, List.length_append, List.length_cons,
            List.length_nil] at h4 ⊢
          omega
    · rcases invalidStep_cases det content esc r with ⟨ev, hev, hiff⟩ | ⟨_, hnone⟩
      · have hv : ev.result = RuleResult.Violated := hiff.mp (by simp [hs])
        simp only [BoundariesLens.invalidLoop, hs] at h ⊢
        exact ⟨[], ev, by simp [hev], hv, by simp, by simp [hev]⟩
      · rw [hnone] at hs
        exact absurd hs (by simp)

/-- A lens state built from an optional escalation reason is never
`Blocked`. -/
theorem escalateOrPass_ne_blocked (o : Option String) (v : String) :
    (match o with
     | some reason => LensState.Escalate reason
     | none => LensState.Pass) ≠ LensState.Blocked v := by
  cases o <;> simp

/-- C6 (amended): for the Boundaries lens the first invalidating match
short-circuits — the lens returns `Blocked` with the violating evaluation
as the last recorded one, no earlier evaluation `Violated`, and only
`invalidated_by` rules examined; the Dignity lens does not
short-circuit — it records one evaluation for every dignity rule even
after a blocking match, but the first rule whose evaluation is `Violated`
still supplies the reported violation. -/
theorem C6_first_blocking_match (det : Detectors) (req : EvaluationRequest) :
    (∀ v, (BoundariesLens.evaluate det req).state = LensState.Blocked v →
      ∃ pre last,
        (BoundariesLens.evaluate det req).rules_evaluated = pre ++ [last] ∧
        last.result = RuleResult.Violated ∧
        (∀ x ∈ pre, x.result ≠ RuleResult.Violated) ∧
        (BoundariesLens.evaluate det req).rules_evaluated.length ≤
          req.contract.boundaries.invalidated_by.length) ∧
    ((DignityLens.evaluate det req).rules_evaluated.length =
        req.contract.dignity_rules.length ∧
     ∀ v, (DignityLens.evaluate det req).state = LensState.Blocked v →
       ∃ r, req.contract.dignity_rules.find?
            (fun r => decide ((DignityLens.dignityStep det req.output.content r).1.result
              = RuleResult.Violated)) = some r ∧
          v = r.id ++ ": " ++ r.rule) := by
  refine ⟨?_, ?_, ?_⟩
  · intro v hv
    unfold BoundariesLens.evaluate at hv ⊢
    rcases hinv : (BoundariesLens.invalidLoop det req.output.content
        req.contract.boundaries.invalidated_by none).2.1 with _ | ⟨rid, rtext, rev⟩
    · simp only [hinv] at hv
      exact absurd hv (escalateOrPass_ne_blocked _ _)
    · simp only [hinv]
      exact invalidLoop_blocked_structure det req.output.content
        req.contract.boundaries.invalidated_by none (rid, rtext, rev) hinv
  · rw [dignity_evaluate_evals]
    exact List.length_map _ _
  · intro v hv
    by_cases hemp : req.contract.dignity_rules = []
    · unfold DignityLens.evaluate at hv
      simp [hemp] at hv
    · rw [dignity_evaluate_state det req hemp] at hv
      have hmap := findSome?_eq_find?_map
        (fun r => decide ((DignityLens.dignityStep det req.output.content r).1.result
          = RuleResult.Violated))
        (fun r => (r.id, r.rule,
          (DignityLens.dignityStep det req.output.content r).1.evidence))
        (fun r => (DignityLens.dignityStep det req.output.content r).2.1)
        (fun r => by
          dsimp only
          rw [dignityStep_blocked_eq]
          by_cases hr : (DignityLens.dignityStep det req.output.content r).1.result
              = RuleResult.Violated <;> simp [hr])
        req.contract.dignity_rules
      rcases hfs : req.contract.dignity_rules.findSome?
          (fun r => (DignityLens.dignityStep det req.output.content r).2.1)
        with _ | ⟨rid, rtext, rev⟩
      · rw [hfs] at hv
        exact absurd hv (escalateOrPass_ne_blocked _ _)
      · rw [hfs] at hv hmap
        have hv' : LensState.Blocked (rid ++ ": " ++ rtext) = LensState.Blocked v := hv
        have hveq : rid ++ ": " ++ rtext = v := by injection hv'
        rcases hfind : req.contract.dignity_rules.find?
            (fun r => decide ((DignityLens.dignityStep det req.output.content r).1.result
              = RuleResult.Violated)) with _ | r
        · rw [hfind] at hmap
          exact absurd hmap.symm (by simp)
        · rw [hfind] at hmap
          have hmap2 : (rid, rtext, rev) =
              (r.id, r.rule,
                (DignityLens.dignityStep det req.output.content r).1.evidence) := by
            injection hmap with h
          refine ⟨r, rfl, ?_⟩
          have h1 : r.id = rid := congrArg (fun p => p.1) hmap2.symm
          have h2 : r.rule = rtext := congrArg (fun p => p.2.1) hmap2.symm
          rw [h1, h2, hveq]

/-- C7: for every dignity rule whose text categorises as pressure, a
pressure-pattern match without a detected human-escalation phrase makes
that rule's evaluation `Violated` and the Dignity lens `Blocked`; the same
match with an escalation phrase present downgrades the evaluation to
`Uncertain`, and (when no rule evaluation is `Violated`) the lens
escalates instead. -/
theorem C7_pressure_conditional (det : Detectors) (req : EvaluationRequest)
    (i : Nat) (rule : Rule)
    (hget : req.contract.dignity_rules[i]? = some rule)
    (hcat : DignityLens.categorize_rule rule.rule = DignityCategory.Pressure) :
    (det.check_pressure req.output.content ≠ [] →
     det.has_human_escalation req.output.content = false →
      ((DignityLens.evaluate det req).rules_evaluated[i]?.map (fun e => e.result) =
         some RuleResult.Violated ∧
       ∃ v, (DignityLens.evaluate det req).state = LensState.Blocked v)) ∧
    (det.check_pressure req.output.content ≠ [] →
     det.has_human_escalation req.output.content = true →
      ((DignityLens.evaluate det req).rules_evaluated[i]?.map (fun e => e.result) =
         some RuleResult.Uncertain ∧
       ((∀ e ∈ (DignityLens.evaluate det req).rules_evaluated,
           e.result ≠ RuleResult.Violated) →
         ∃ reason, (DignityLens.evaluate det req).state = LensState.Escalate reason))) := by
  have hne : req.contract.dignity_rules ≠ [] := by
    intro h0
    rw [h0] at hget
    simp at hget
  have hmem : rule ∈ req.contract.dignity_rules := List.getElem?_mem hget
  have hevals := dignity_evaluate_evals det req
  constructor
  · intro hp hesc
    have hviol := dignityStep_pressure_noescal det req.output.content rule hcat hp hesc
    constructor
    · rw [hevals, List.getElem?_map, hget]
      simp [hviol]
    · rw [dignity_evaluate_state det req hne]
      rcases hfs : req.contract.dignity_rules.findSome?
          (fun r => (DignityLens.dignityStep det req.output.content r).2.1)
        with _ | ⟨rid, rtext, rev⟩
      · exfalso
        have hrsome : (DignityLens.dignityStep det req.output.content rule).2.1.isSome := by
          rw [dignityStep_blocked_eq]
          simp [hviol]
        rw [List.findSome?_eq_none_iff] at hfs
        rw [hfs rule hmem] at hrsome
        simp at hrsome
      · exact ⟨rid ++ ": " ++ rtext, rfl⟩
  · intro hp hesc
    obtain ⟨hunc, hcontrib⟩ :=
      dignityStep_pressure_escal det req.output.content rule hcat hp hesc
    constructor
    · rw [hevals, List.getElem?_map, hget]
      simp [hunc]
    · intro hnov
      rw [dignity_evaluate_state det req hne]
      have hbnone : req.contract.dignity_rules.findSome?
          (fun r => (DignityLens.dignityStep det req.output.content r).2.1) = none := by
        rw [List.findSome?_eq_none_iff]
        intro x hx
        rw [dignityStep_blocked_eq]
        have hx2 : (DignityLens.dignityStep det req.output.content x).1.result ≠
            RuleResult.Violated := by
          apply hnov
          rw [hevals]
          exact List.mem_map_of_mem _ hx
        simp [hx2]
      rw [hbnone]
      rcases hes : req.contract.dignity_rules.findSome?
          (fun r => (DignityLens.dignityStep det req.output.content r).2.2)
        with _ | reason
      · exfalso
        rw [List.findSome?_eq_none_iff] at hes
        rw [hes rule hmem] at hcontrib
        simp at hcontrib
      · exact ⟨reason, rfl⟩

/-! ## Concrete instances for counterexamples and witnesses

Each concrete detector table records what the fixed regex tables of the
sources produce on the specific content it is paired with; a reviewer can
re-trace each regex on that content. -/

/-- A detector table with no matches at all, as the regex tables produce
on content such as "Thanks." that triggers no pattern. -/
def detNone : Detectors :=
  { check_pii := fun _ => []
    check_secrets := fun _ => []
    check_dismissive := fun _ => []
    check_pressure := fun _ => []
    check_exclusion := fun _ => []
    has_human_escalation := fun _ => false
    has_empathy := fun _ => false
    has_citations := fun _ => false
    claim_matches := fun _ => []
    has_explicit_assumptions := fun _ => false
    check_hidden_assumptions := fun _ => []
    has_contestability := fun _ => false
    has_next_steps := fun _ => false
    addresses_question := fun _ => false }

/-- Detector table for the output "You must do this.": the pressure regex
alternative `you must` matches case-insensitively at bytes 0 to 8 and no
other pattern fires (in particular no human-escalation phrase occurs). -/
def detPressure : Detectors :=
  { detNone with
    check_pressure := fun s =>
      if s = "You must do this." then [("urgency pressure", 0, 8)] else [] }

/-- Detector table for the output
"You must do this or speak to a human agent.": the pressure regex matches
`you must` at bytes 0 to 8 and the human-escalation regex matches
`speak to a human`. -/
def detPressureEscal : Detectors :=
  { detNone with
    check_pressure := fun s =>
      if s = "You must do this or speak to a human agent."
      then [("urgency pressure", 0, 8)] else []
    has_human_escalation := fun s =>
      s == "You must do this or speak to a human agent." }

/-- Detector table for the output
"Contact john.doe@email.com for more info.": the email regex matches at
bytes 8 to 26 and no other pattern fires. -/
def detPII : Detectors :=
  { detNone with
    check_pii := fun s =>
      if s = "Contact john.doe@email.com for more info."
      then [("Email address", 8, 26)] else [] }

/-- A contract with two dignity checks: a pressure rule first, a
dismissiveness rule second. -/
def contractDignity : Contract :=
  { contract_version := "1.0"
    schema_version := "2025-12-20"
    policy_pack := []
    name := "Example"
    description := none
    intent := { purpose := "Example", optimizing_for := [],
                never_optimize_away := [] }
    boundaries := { may_do_autonomously := [], must_pause_when := [],
                    must_escalate_when := [], invalidated_by := [] }
    accountability := { approved_by := none,
                        answerable_human := "owner@example.com",
                        escalation_path := [], review_cadence := none }
    acceptance := { fit_criteria := [],
                    dignity_check :=
                      [{ id := "D1", rule := "Does not pressure customer" },
                       { id := "D2", rule := "Does not dismiss concerns" }] } }

/-- Request pairing the dignity contract with pressuring output and no
escalation phrase. -/
def reqPressure : EvaluationRequest :=
  { contract := contractDignity
    output := Output.text "You must do this."
    context := none
    metadata := none }

/-- Request pairing the dignity contract with pressuring output that
offers a human-escalation path. -/
def reqPressureEscal : EvaluationRequest :=
  { contract := contractDignity
    output := Output.text "You must do this or speak to a human agent."
    context := none
    metadata := none }

/-- A contract whose only rule invalidates on exposed customer PII. -/
def contractPII : Contract :=
  { contract_version := "1.0"
    schema_version := "2025-12-20"
    policy_pack := []
    name := "Example"
    description := none
    intent := { purpose := "Example", optimizing_for := [],
                never_optimize_away := [] }
    boundaries := { may_do_autonomously := [], must_pause_when := [],
                    must_escalate_when := [],
                    invalidated_by :=
                      [{ id := "B1", rule := "Customer PII exposed in response" }] }
    accountability := { approved_by := none,
                        answerable_human := "owner@example.com",
                        escalation_path := [], review_cadence := none }
    acceptance := { fit_criteria := [], dignity_check := [] } }

/-- Request pairing the PII contract with output leaking an email
address. -/
def reqPII : EvaluationRequest :=
  { contract := contractPII
    output := Output.text "Contact john.doe@email.com for more info."
    context := none
    metadata := none }

/-- C6 counterexample: the claim says no rule evaluations after the
blocking one appear in `rules_evaluated`, for the Dignity lens too; on a
contract with a blocking pressure rule followed by a dismissiveness rule,
the Dignity lens blocks on the first rule yet still records the second
rule's evaluation (a trailing `Satisfied` entry), refuting the claim. -/
theorem C6_counterexample_dignity_continues :
    (DignityLens.evaluate detPressure reqPressure).state =
      LensState.Blocked "D1: Does not pressure customer" ∧
    (DignityLens.evaluate detPressure reqPressure).rules_evaluated.length = 2 ∧
    ((DignityLens.evaluate detPressure reqPressure).rules_evaluated.getLast?).map
      (fun e => e.result) = some RuleResult.Satisfied := by
  refine ⟨?_, ?_, ?_⟩ <;> rfl

/-- C6 witness: the amended theorem applied to concrete blocking inputs
of each lens. -/
theorem C6_witness :
    (∃ pre last,
       (BoundariesLens.evaluate detPII reqPII).rules_evaluated = pre ++ [last] ∧
       last.result = RuleResult.Violated ∧
       (∀ x ∈ pre, x.result ≠ RuleResult.Violated) ∧
       (BoundariesLens.evaluate detPII reqPII).rules_evaluated.length ≤
         reqPII.contract.boundaries.invalidated_by.length) ∧
    (∃ r, reqPressure.contract.dignity_rules.find?
        (fun r => decide ((DignityLens.dignityStep detPressure
          reqPressure.output.content r).1.result = RuleResult.Violated)) = some r ∧
      "D1: Does not pressure customer" = r.id ++ ": " ++ r.rule) := by
  constructor
  · exact (C6_first_blocking_match detPII reqPII).1
      "B1: Customer PII exposed in response" (by rfl)
  · exact (C6_first_blocking_match detPressure reqPressure).2.2
      "D1: Does not pressure customer" (by rfl)

/-- C7 witness: the theorem applied at the first dignity rule of the
concrete pressure contract, once without and once with an escalation
phrase. -/
theorem C7_witness :
    ((DignityLens.evaluate detPressure reqPressure).rules_evaluated[0]?.map
        (fun e => e.result) = some RuleResult.Violated ∧
     ∃ v, (DignityLens.evaluate detPressure reqPressure).state =
       LensState.Blocked v) ∧
    ((DignityLens.evaluate detPressureEscal reqPressureEscal).rules_evaluated[0]?.map
        (fun e => e.result) = some RuleResult.Uncertain ∧
     ∃ reason, (DignityLens.evaluate detPressureEscal reqPressureEscal).state =
       LensState.Escalate reason) := by
  constructor
  · exact (C7_pressure_conditional detPressure reqPressure 0
      { id := "D1", rule := "Does not pressure customer" } (by rfl) (by rfl)).1
      (by decide) (by rfl)
  · obtain ⟨h1, h2⟩ := (C7_pressure_conditional detPressureEscal reqPressureEscal 0
      { id := "D1", rule := "Does not pressure customer" } (by rfl) (by rfl)).2
      (by decide) (by rfl)
    exact ⟨h1, h2 (by decide)⟩

/-! ## Clean-contract lens behaviour (for C9) -/

/-- With no dignity rules, the Dignity lens passes at confidence 0.6. -/
theorem dignity_state_no_rules (det : Detectors) (req : EvaluationRequest)
    (h : req.contract.dignity_rules = []) :
    (DignityLens.evaluate det req).state = LensState.Pass ∧
      (DignityLens.evaluate det req).confidence = 0.6 := by
  unfold DignityLens.evaluate
  simp [h]

/-- With no boundary rules at all, the Boundaries lens passes at the
empty-rules confidence 0.5. -/
theorem boundaries_state_no_rules (det : Detectors) (req : EvaluationRequest)
    (h2 : req.contract.boundaries.must_pause_when = [])
    (h3 : req.contract.boundaries.must_escalate_when = [])
    (h4 : req.contract.boundaries.invalidated_by = []) :
    (BoundariesLens.evaluate det req).state = LensState.Pass ∧
      (BoundariesLens.evaluate det req).confidence = 0.5 := by
  unfold BoundariesLens.evaluate
  simp [h2, h3, h4, BoundariesLens.invalidLoop, BoundariesLens.accumLoop,
    BoundariesLens.calculate_confidence]

/-- With no restraint rules, the Restraint lens returns the modelled
default pass finding. -/
theorem restraint_state_no_rules (dpc : ℚ) (req : EvaluationRequest)
    (h : req.contract.restraint_rules = []) :
    (RestraintLens.evaluate dpc req).state = LensState.Pass ∧
      (RestraintLens.evaluate dpc req).confidence = dpc := by
  unfold RestraintLens.evaluate
  simp [h, default_pass_finding]

/-- With no fit criteria and no claim matches on the output, the
Transparency lens passes at confidence 0.6. -/
theorem transparency_state_no_rules (det : Detectors) (req : EvaluationRequest)
    (hfc : req.contract.transparency_rules = [])
    (hcm : det.claim_matches req.output.content = []) :
    (TransparencyLens.evaluate det req).state = LensState.Pass ∧
      (TransparencyLens.evaluate det req).confidence = 0.6 := by
  unfold TransparencyLens.evaluate
  simp [hfc, TransparencyLens.check_uncited_claims, hcm]

/-- With a full accountability section, the Accountability lens passes at
confidence 0.95. -/
theorem accountability_state_full (req : EvaluationRequest)
    (hah : req.contract.accountability.answerable_human ≠ "")
    (hap : req.contract.accountability.approved_by.isSome)
    (hep : req.contract.accountability.escalation_path ≠ []) :
    (AccountabilityLens.evaluate req).state = LensState.Pass ∧
      (AccountabilityLens.evaluate req).confidence = 0.95 := by
  have hep' : req.contract.accountability.escalation_path.isEmpty = false := by
    rcases h : req.contract.accountability.escalation_path with _ | ⟨a, rest⟩
    · exact absurd h hep
    · rfl
  have hap' : req.contract.accountability.approved_by.isNone = false := by
    rcases h : req.contract.accountability.approved_by with _ | v
    · rw [h] at hap; simp at hap
    · rfl
  unfold AccountabilityLens.evaluate
  simp [hah, hep', hap']

/-- When all five findings pass, synthesis proceeds. -/
theorem synthesize_proceed_of_all_pass (f : LensFindings) (c : Contract) (t : Nat)
    (h1 : f.dignity_inclusion.state = LensState.Pass)
    (h2 : f.boundaries_safety.state = LensState.Pass)
    (h3 : f.restraint_privacy.state = LensState.Pass)
    (h4 : f.transparency_contestability.state = LensState.Pass)
    (h5 : f.accountability_ownership.state = LensState.Pass) :
    ∃ s, (Synthesizer.synthesize f c t).state = State.Proceed s := by
  have hfb : Synthesizer.find_blocked f = none := by
    simp [Synthesizer.find_blocked, Synthesizer.checksList, List.findSome?_cons,
      h1, h2, h3, h4, h5]
  have hfe : Synthesizer.find_escalate f = none := by
    simp [Synthesizer.find_escalate, Synthesizer.checksList, List.findSome?_cons,
      h1, h2, h3, h4, h5]
  unfold Synthesizer.synthesize
  rw [hfb, hfe]
  exact ⟨_, rfl⟩

/-- Evaluation of the clamped-minimum confidence at given lens
confidences. -/
theorem calc_confidence_eval (f : LensFindings) (a b r t acc : ℚ)
    (h1 : f.dignity_inclusion.confidence = a)
    (h2 : f.boundaries_safety.confidence = b)
    (h3 : f.restraint_privacy.confidence = r)
    (h4 : f.transparency_contestability.confidence = t)
    (h5 : f.accountability_ownership.confidence = acc) :
    Synthesizer.calculate_confidence_from_findings f =
      max (min (min a (min b (min r (min t acc)))) 1) 0 := by
  unfold Synthesizer.calculate_confidence_from_findings
  rw [h1, h2, h3, h4, h5]

/-- C9 (amended): for every contract with no boundary rules, no
acceptance rules (fit criteria or dignity checks), no never-optimize-away
rules, and a full accountability section, evaluating a clean output (no
detector matches) yields state `Proceed` with overall confidence exactly
0.5 — not greater than 0.9 as claimed: the boundaries lens reports
confidence 0.5 when it has no rules to check, and the synthesizer's
minimum rule propagates that value. -/
theorem C9_clean_contract_proceeds (det : Detectors) (dpc : ℚ) (c : Contract)
    (o : Output) (ctx : Option (List String))
    (md : Option (List (String × String))) (t : Nat)
    (hdpc1 : 1/2 ≤ dpc) (_hdpc2 : dpc ≤ 7/10)
    (_hb1 : c.boundaries.may_do_autonomously = [])
    (hb2 : c.boundaries.must_pause_when = [])
    (hb3 : c.boundaries.must_escalate_when = [])
    (hb4 : c.boundaries.invalidated_by = [])
    (hno : c.intent.never_optimize_away = [])
    (hfc : c.acceptance.fit_criteria = [])
    (hdc : c.acceptance.dignity_check = [])
    (hah : c.accountability.answerable_human ≠ "")
    (hap : c.accountability.approved_by.isSome)
    (hep : c.accountability.escalation_path ≠ [])
    (hcm : det.claim_matches o.content = []) :
    ∃ r, evaluate_with_context det dpc c o ctx md t = Except.ok r ∧
      (∃ s, r.state = State.Proceed s) ∧ r.confidence = 1/2 := by
  have hd := dignity_state_no_rules det
    { contract := c, output := o, context := ctx, metadata := md }
    (by simp [Contract.dignity_rules, hdc, hno])
  have hb := boundaries_state_no_rules det
    { contract := c, output := o, context := ctx, metadata := md } hb2 hb3 hb4
  have hr := restraint_state_no_rules dpc
    { contract := c, output := o, context := ctx, metadata := md }
    (by simp [Contract.restraint_rules, hb4, hno])
  have ht := transparency_state_no_rules det
    { contract := c, output := o, context := ctx, metadata := md }
    (by simp [Contract.transparency_rules, hfc]) hcm
  have ha := accountability_state_full
    { contract := c, output := o, context := ctx, metadata := md } hah hap hep
  refine ⟨_, rfl, ?_, ?_⟩
  · exact synthesize_proceed_of_all_pass _ c t hd.1 hb.1 hr.1 ht.1 ha.1
  · rw [synthesize_confidence,
      calc_confidence_eval _ 0.6 0.5 dpc 0.6 0.95 hd.2 hb.2 hr.2 ht.2 ha.2]
    have e1 : min (0.6:ℚ) 0.95 = 0.6 := by norm_num [min_def]
    rw [e1]
    have e2 : min (0.5:ℚ) (min dpc 0.6) = 0.5 := by
      apply min_eq_left
      apply le_min _ (by norm_num)
      calc (0.5:ℚ) = 1/2 := by norm_num
        _ ≤ dpc := hdpc1
    rw [e2]
    norm_num [min_def, max_def]

/-- A contract with no boundary, acceptance or never-optimize-away rules
and a full accountability section. -/
def contractClean : Contract :=
  { contract_version := "1.0"
    schema_version := "2025-12-20"
    policy_pack := []
    name := "Example"
    description := none
    intent := { purpose := "Example", optimizing_for := [],
                never_optimize_away := [] }
    boundaries := { may_do_autonomously := [], must_pause_when := [],
                    must_escalate_when := [], invalidated_by := [] }
    accountability := { approved_by := some "Manager",
                        answerable_human := "owner@example.com",
                        escalation_path := ["Tier 1"], review_cadence := none }
    acceptance := { fit_criteria := [], dignity_check := [] } }

/-- C9 counterexample: on a concrete contract with no boundary rules and
a full accountability section, evaluating the clean output "Thanks."
yields `Proceed` with overall confidence exactly one half — not greater
than 0.9 as the claim demands. -/
theorem C9_counterexample_confidence_half :
    ∃ r, evaluate_with_context detNone 0.6 contractClean (Output.text "Thanks.")
        none none 0 = Except.ok r ∧
      (∃ s, r.state = State.Proceed s) ∧ r.confidence = 1/2 ∧
      ¬ ((9:ℚ)/10 < r.confidence) := by
  refine ⟨_, rfl, ⟨_, rfl⟩, ?_, ?_⟩
  · rw [synthesize_confidence,
      calc_confidence_eval _ 0.6 0.5 0.6 0.6 0.95 rfl rfl rfl rfl rfl]
    norm_num [min_def, max_def]
  · rw [synthesize_confidence,
      calc_confidence_eval _ 0.6 0.5 0.6 0.6 0.95 rfl rfl rfl rfl rfl]
    norm_num [min_def, max_def]

/-- C9 witness: the amended theorem applied to a concrete clean contract,
output and detector table, with every hypothesis discharged. -/
theorem C9_witness :
    ∃ r, evaluate_with_context detNone 0.6 contractClean (Output.text "Okay.")
        none none 5 = Except.ok r ∧
      (∃ s, r.state = State.Proceed s) ∧ r.confidence = 1/2 :=
  C9_clean_contract_proceeds detNone 0.6 contractClean (Output.text "Okay.")
    none none 5 (by norm_num) (by norm_num) rfl rfl rfl rfl rfl rfl rfl
    (by decide) rfl (by decide) rfl

/-! ## Evidence validator claims -/

/-- Claim side: resolution of a parsed pointer source to the string it
denotes, mirroring the match arms of `validate_pointer` and
`extract_slice`: the output content for `output`/`output.content`, the
indexed context entry for `context[i]` when the index is in range, and
nothing otherwise. -/
def resolveSource (src : String) (output : Output) (context : List String) :
    Option String :=
  if src = "output.content" || src = "output" then some output.content
  else if src.startsWith "context[" then
    match EvidenceValidator.parse_context_index src with
    | Except.ok i => context[i]?
    | Except.error _ => none
  else none

/-- Case split of a successful source resolution. -/
theorem resolveSource_cases (src : String) (output : Output)
    (context : List String) (s : String)
    (hres : resolveSource src output context = some s) :
    ((src = "output.content" || src = "output") = true ∧ s = output.content) ∨
    ((src = "output.content" || src = "output") = false ∧
      src.startsWith "context[" = true ∧
      ∃ i, EvidenceValidator.parse_context_index src = Except.ok i ∧
        context[i]? = some s) := by
  unfold resolveSource at hres
  by_cases h1 : (src = "output.content" || src = "output") = true
  · rw [if_pos h1] at hres
    left
    exact ⟨h1, by injection hres with h; exact h.symm⟩
  · rw [Bool.not_eq_true] at h1
    rw [h1] at hres
    simp only [Bool.false_eq_true, if_false] at hres
    by_cases h2 : src.startsWith "context[" = true
    · rw [if_pos h2] at hres
      rcases hpc : EvidenceValidator.parse_context_index src with e | i <;>
        rw [hpc] at hres
      · exact absurd hres (by simp)
      · exact Or.inr ⟨h1, h2, i, rfl, hres⟩
    · rw [Bool.not_eq_true] at h2
      rw [h2] at hres
      simp at hres

/-- Master equation: on a pointer that parses over a resolvable source,
`validate` checks the upper bound against the resolved string, slices it
(panicking off character boundaries), and compares whitespace-normalised
quotes. -/
theorem validate_eq_of_resolve (output : Output) (context : List String)
    (ev : Evidence) (src : String) (a b : Nat) (s : String)
    (hparse : EvidenceValidator.parse_pointer ev.pointer = Except.ok (src, a, b))
    (hres : resolveSource src output context = some s) :
    EvidenceValidator.validate output context ev =
      (if b > strLen s then
        VOutcome.err (EvidenceValidationError.PointerOutOfBounds ev.pointer (strLen s) b)
      else
        match byteSlice s.data a b with
        | none => VOutcome.panic
        | some cs =>
          if normalize_whitespace (String.mk cs) ≠ normalize_whitespace ev.claim
          then VOutcome.err (EvidenceValidationError.QuoteMismatch ev.pointer
            ev.claim (String.mk cs))
          else VOutcome.ok ()) := by
  unfold EvidenceValidator.validate EvidenceValidator.validate_quote
    EvidenceValidator.validate_pointer EvidenceValidator.extract_slice
  rw [hparse]
  rcases resolveSource_cases src output context s hres with
    ⟨h1, rfl⟩ | ⟨h1, h2, i, hpc, hctx⟩
  · simp only [h1, if_true]
    by_cases hb : b > strLen output.content
    · simp [hb]
    · simp only [hb, if_false, gt_iff_lt]
      rcases hsl : byteSlice output.content.data a b with _ | cs <;> simp [hsl]
  · obtain ⟨hi, _⟩ := List.getElem?_eq_some_iff.1 hctx
    have hgd : context.getD i "" = s := by
      rw [List.getD_eq_getElem?_getD, hctx]
      rfl
    simp only [h1, Bool.false_eq_true, if_false, h2, if_true]
    rw [hpc]
    simp only [Nat.not_le.mpr hi, if_false, hgd]
    by_cases hb : b > strLen s
    · simp [hb, Nat.not_le.mpr hi]
    · simp only [hb, if_false]
      rcases hsl : byteSlice s.data a b with _ | cs <;> simp [hsl]

/-- C4 (amended): for every output, context and evidence item whose
pointer parses as `source[a:b]` over a known source resolving to a string
`s`: when `b` exceeds the byte length of `s`, validation fails with
`PointerOutOfBounds`; when `a ≤ b ≤ len s` and both offsets fall on UTF-8
character boundaries (the amendment — an offset inside a multi-byte
character makes the code panic instead, see C10), validation succeeds
exactly when the whitespace-normalised slice equals the normalised
claimed quote, and fails with `QuoteMismatch` for any other quote. -/
theorem C4_validate_bounds_and_quote (output : Output) (context : List String)
    (ev : Evidence) (src : String) (a b : Nat) (s : String)
    (hparse : EvidenceValidator.parse_pointer ev.pointer = Except.ok (src, a, b))
    (hres : resolveSource src output context = some s) :
    (b > strLen s →
      EvidenceValidator.validate output context ev =
        VOutcome.err (EvidenceValidationError.PointerOutOfBounds ev.pointer
          (strLen s) b)) ∧
    (b ≤ strLen s → ∀ cs, byteSlice s.data a b = some cs →
      ((normalize_whitespace (String.mk cs) = normalize_whitespace ev.claim →
         EvidenceValidator.validate output context ev = VOutcome.ok ()) ∧
       (normalize_whitespace (String.mk cs) ≠ normalize_whitespace ev.claim →
         EvidenceValidator.validate output context ev =
           VOutcome.err (EvidenceValidationError.QuoteMismatch ev.pointer ev.claim
             (String.mk cs))))) := by
  have hv := validate_eq_of_resolve output context ev src a b s hparse hres
  refine ⟨fun hb => ?_, fun hb cs hsl => ⟨fun hq => ?_, fun hq => ?_⟩⟩
  · rw [hv, if_pos hb]
  · rw [hv, if_neg (Nat.not_lt.mpr hb), hsl]
    simp [hq]
  · rw [hv, if_neg (Nat.not_lt.mpr hb), hsl]
    simp [hq]

/-- C4 counterexample: with output "aé" (three UTF-8 bytes) and pointer
`output.content[0:2]` — offsets in bounds and in order, but the end
inside the two-byte character — the claim demands `QuoteMismatch` for the
non-matching quote "zz", yet the code panics. -/
theorem C4_counterexample_panic_instead_of_mismatch :
    EvidenceValidator.validate (Output.text "aé") []
      { claim := "zz", source := EvidenceSource.Output,
        pointer := "output.content[0:2]" } = VOutcome.panic ∧
    (∀ e a, EvidenceValidator.validate (Output.text "aé") []
      { claim := "zz", source := EvidenceSource.Output,
        pointer := "output.content[0:2]" } ≠
      VOutcome.err (EvidenceValidationError.QuoteMismatch "output.content[0:2]" e a)) := by
  have h : EvidenceValidator.validate (Output.text "aé") []
      { claim := "zz", source := EvidenceSource.Output,
        pointer := "output.content[0:2]" } = VOutcome.panic := by rfl
  refine ⟨h, fun e a hcontra => ?_⟩
  rw [h] at hcontra
  exact VOutcome.noConfusion hcontra

/-- C4 witness: the amended theorem applied to the output
"Hello, world!" with a matching quote, a mismatched quote, and an
out-of-bounds end. -/
theorem C4_witness :
    EvidenceValidator.validate (Output.text "Hello, world!") []
      { claim := "Hello", source := EvidenceSource.Output,
        pointer := "output.content[0:5]" } = VOutcome.ok () ∧
    EvidenceValidator.validate (Output.text "Hello, world!") []
      { claim := "Goodbye", source := EvidenceSource.Output,
        pointer := "output.content[0:5]" } =
      VOutcome.err (EvidenceValidationError.QuoteMismatch "output.content[0:5]"
        "Goodbye" "Hello") ∧
    EvidenceValidator.validate (Output.text "Hello, world!") []
      { claim := "Hello", source := EvidenceSource.Output,
        pointer := "output.content[0:100]" } =
      VOutcome.err (EvidenceValidationError.PointerOutOfBounds
        "output.content[0:100]" 13 100) := by
  refine ⟨?_, ?_, ?_⟩
  · exact ((C4_validate_bounds_and_quote (Output.text "Hello, world!") [] _
      "output.content" 0 5 "Hello, world!" (by rfl) (by rfl)).2
      (by decide) "Hello".data (by rfl)).1 (by rfl)
  · exact ((C4_validate_bounds_and_quote (Output.text "Hello, world!") [] _
      "output.content" 0 5 "Hello, world!" (by rfl) (by rfl)).2
      (by decide) "Hello".data (by rfl)).2 (by decide)
  · exact (C4_validate_bounds_and_quote (Output.text "Hello, world!") [] _
      "output.content" 0 100 "Hello, world!" (by rfl) (by rfl)).1 (by decide)

/-- C5 (amended): the validator requires `start ≤ end ≤ len(resolved)`,
but the two violations fail differently: a syntactically well-formed
pointer with `start > end` is rejected by `parse_pointer` with
`InvalidPointerFormat` (not `PointerOutOfBounds` as claimed), while an
in-order pointer whose end exceeds the resolved string's byte length
fails with `PointerOutOfBounds` reporting the requested end and the
actual length. -/
theorem C5_bounds_requirements (output : Output) (context : List String)
    (ev : Evidence) (src : String) (a b : Nat)
    (hmatch : pointer_match ev.pointer = some (src, a, b)) :
    (a > b → EvidenceValidator.validate output context ev =
       VOutcome.err (EvidenceValidationError.InvalidPointerFormat ev.pointer)) ∧
    (∀ s, a ≤ b → resolveSource src output context = some s → b > strLen s →
       EvidenceValidator.validate output context ev =
         VOutcome.err (EvidenceValidationError.PointerOutOfBounds ev.pointer
           (strLen s) b)) := by
  constructor
  · intro hab
    have hp : EvidenceValidator.parse_pointer ev.pointer =
        Except.error (EvidenceValidationError.InvalidPointerFormat ev.pointer) := by
      unfold EvidenceValidator.parse_pointer
      rw [hmatch]
      simp [hab]
    unfold EvidenceValidator.validate EvidenceValidator.validate_pointer
    rw [hp]
  · intro s hab hres hb
    have hp : EvidenceValidator.parse_pointer ev.pointer =
        Except.ok (src, a, b) := by
      unfold EvidenceValidator.parse_pointer
      rw [hmatch]
      simp [Nat.not_lt.mpr hab]
    have hv := validate_eq_of_resolve output context ev src a b s hp hres
    rw [hv, if_pos hb]

/-- C5 counterexample: the well-formed pointer `output.content[5:2]`
(start exceeding end) fails with `InvalidPointerFormat`, not with the
`PointerOutOfBounds` error the claim names. -/
theorem C5_counterexample_invalid_format_not_oob :
    EvidenceValidator.validate (Output.text "Hello, world!") []
      { claim := "x", source := EvidenceSource.Output,
        pointer := "output.content[5:2]" } =
      VOutcome.err (EvidenceValidationError.InvalidPointerFormat
        "output.content[5:2]") ∧
    (∀ al re, EvidenceValidator.validate (Output.text "Hello, world!") []
      { claim := "x", source := EvidenceSource.Output,
        pointer := "output.content[5:2]" } ≠
      VOutcome.err (EvidenceValidationError.PointerOutOfBounds
        "output.content[5:2]" al re)) := by
  have h : EvidenceValidator.validate (Output.text "Hello, world!") []
      { claim := "x", source := EvidenceSource.Output,
        pointer := "output.content[5:2]" } =
      VOutcome.err (EvidenceValidationError.InvalidPointerFormat
        "output.content[5:2]") := by rfl
  refine ⟨h, fun al re hcontra => ?_⟩
  rw [h] at hcontra
  simp at hcontra

/-- C5 witness: the amended theorem applied to a reversed-range pointer
and to an out-of-bounds pointer. -/
theorem C5_witness :
    EvidenceValidator.validate (Output.text "Hello") []
      { claim := "x", source := EvidenceSource.Output,
        pointer := "output.content[4:1]" } =
      VOutcome.err (EvidenceValidationError.InvalidPointerFormat
        "output.content[4:1]") ∧
    EvidenceValidator.validate (Output.text "Hello") []
      { claim := "x", source := EvidenceSource.Output,
        pointer := "output.content[0:9]" } =
      VOutcome.err (EvidenceValidationError.PointerOutOfBounds
        "output.content[0:9]" 5 9) := by
  constructor
  · exact (C5_bounds_requirements (Output.text "Hello") [] _
      "output.content" 4 1 (by rfl)).1 (by decide)
  · exact (C5_bounds_requirements (Output.text "Hello") [] _
      "output.content" 0 9 (by rfl)).2 "Hello" (by decide) (by rfl) (by decide)

/-- C10: `EvidenceValidator::validate` is not total — with output "é"
(one character, two UTF-8 bytes) and the pointer `output.content[0:1]`,
whose end offset is within the string's byte length but inside the
two-byte character, the byte slice `self.output.content[range]` panics
instead of returning a typed error. -/
theorem C10_validate_panics_inside_char :
    EvidenceValidator.validate (Output.text "é") []
      { claim := "x", source := EvidenceSource.Output,
        pointer := "output.content[0:1]" } = VOutcome.panic := by
  rfl

/-! ## Circuit breaker claims -/

/-- A fresh breaker after a whole run of `failure_threshold` consecutive
failures. -/
def openedBreaker (cfg : CircuitBreakerConfig) (lens : LensType) (t : Nat) :
    CircuitBreaker :=
  CircuitBreaker.recordFailures (CircuitBreaker.new cfg) lens t
    cfg.failure_threshold

/-- Recording a failure never changes the configuration. -/
theorem record_failure_config (cb : CircuitBreaker) (lens : LensType)
    (now : Nat) :
    (CircuitBreaker.record_failure cb lens now).config = cb.config := by
  unfold CircuitBreaker.record_failure
  rcases cb.states lens with _ | st
  · rfl
  · rcases st with f | o | su
    · dsimp only
      split <;> rfl
    · rfl
    · rfl

/-- Iterated failures never change the configuration. -/
theorem recordFailures_config (cb : CircuitBreaker) (lens : LensType) (t : Nat) :
    ∀ n, (CircuitBreaker.recordFailures cb lens t n).config = cb.config
  | 0 => rfl
  | n + 1 => by
    unfold CircuitBreaker.recordFailures
    rw [record_failure_config]
    exact recordFailures_config cb lens t n

/-- Fewer failures than the threshold leave a fresh breaker `Closed`,
counting them. -/
theorem recordFailures_closed (cfg : CircuitBreakerConfig) (lens : LensType)
    (t : Nat) :
    ∀ n, 1 ≤ n → n < cfg.failure_threshold →
      (CircuitBreaker.recordFailures (CircuitBreaker.new cfg) lens t n).states
        lens = some (CircuitState.Closed n)
  | 0, h1, _ => absurd h1 (by simp)
  | 1, _, _hlt => by
    unfold CircuitBreaker.recordFailures CircuitBreaker.recordFailures
    unfold CircuitBreaker.record_failure
    simp [CircuitBreaker.new, CircuitBreaker.insertState]
  | n + 2, _, hlt => by
    unfold CircuitBreaker.recordFailures
    have hprev := recordFailures_closed cfg lens t (n + 1) (by omega) (by omega)
    unfold CircuitBreaker.record_failure
    rw [hprev]
    rw [show (CircuitBreaker.recordFailures (CircuitBreaker.new cfg) lens t
      (n + 1)).config = cfg from recordFailures_config _ _ _ _]
    have hn : ¬ (n + 1 + 1 ≥ cfg.failure_threshold) := by omega
    simp [hn, CircuitBreaker.insertState]

/-- After exactly `failure_threshold` consecutive failures (threshold at
least two) a fresh breaker is `Open`, stamped with the time of the last
failure. -/
theorem recordFailures_opens (cfg : CircuitBreakerConfig) (lens : LensType)
    (t : Nat) (h2 : 2 ≤ cfg.failure_threshold) :
    (openedBreaker cfg lens t).states lens = some (CircuitState.Open t) := by
  obtain ⟨k, hk⟩ := Nat.exists_eq_add_of_le' h2
  unfold openedBreaker
  rw [hk]
  unfold CircuitBreaker.recordFailures
  have hprev := recordFailures_closed cfg lens t (k + 1) (by omega) (by omega)
  unfold CircuitBreaker.record_failure
  rw [hprev]
  rw [show (CircuitBreaker.recordFailures (CircuitBreaker.new cfg) lens t
    (k + 1)).config = cfg from recordFailures_config _ _ _ _]
  have hge : k + 1 + 1 ≥ cfg.failure_threshold := by omega
  simp [hge, CircuitBreaker.insertState]

/-- C8 (corrected): for a breaker whose `failure_threshold` is at least
two, after `failure_threshold` consecutive recorded failures the circuit
is open, stamped with the time of the opening failure; `is_open` answers
`true` and leaves the breaker untouched while the recovery timeout has
not elapsed, and once it has elapsed `is_open` answers `false` and moves
the circuit to `HalfOpen` with zero successes; a recorded success while
half-open closes the circuit exactly when the accumulated successes reach
`success_threshold` (and otherwise only increments the counter, leaving
the circuit unclosed); a recorded failure while half-open immediately
reopens the circuit.  (The original claim, with no lower bound on the
threshold, is refuted by the counterexample: with `failure_threshold = 1`
the very first failure leaves a fresh circuit `Closed`.) -/
theorem C8_circuit_breaker (cfg : CircuitBreakerConfig) (lens : LensType)
    (t : Nat) (h2 : 2 ≤ cfg.failure_threshold) :
    ((openedBreaker cfg lens t).states lens = some (CircuitState.Open t))
    ∧ (∀ now, now - t < cfg.recovery_timeout →
        CircuitBreaker.is_open (openedBreaker cfg lens t) lens now
          = (true, openedBreaker cfg lens t))
    ∧ (∀ now, cfg.recovery_timeout ≤ now - t →
        (CircuitBreaker.is_open (openedBreaker cfg lens t) lens now).1 = false
        ∧ ((CircuitBreaker.is_open (openedBreaker cfg lens t) lens now).2).states
            lens = some (CircuitState.HalfOpen 0))
    ∧ (∀ cb : CircuitBreaker, ∀ s, cb.config = cfg →
        cb.states lens = some (CircuitState.HalfOpen s) →
        ((CircuitBreaker.record_success cb lens).states lens =
          if cfg.success_threshold ≤ s + 1 then some (CircuitState.Closed 0)
          else some (CircuitState.HalfOpen (s + 1)))
        ∧ (s + 1 < cfg.success_threshold →
            (CircuitBreaker.record_success cb lens).states lens
              ≠ some (CircuitState.Closed 0)))
    ∧ (∀ cb : CircuitBreaker, ∀ s now2,
        cb.states lens = some (CircuitState.HalfOpen s) →
        (CircuitBreaker.record_failure cb lens now2).states lens
          = some (CircuitState.Open now2)) := by
  have hopen := recordFailures_opens cfg lens t h2
  have hcfg : (openedBreaker cfg lens t).config = cfg :=
    recordFailures_config _ _ _ _
  refine ⟨hopen, ?_, ?_, ?_, ?_⟩
  · intro now hlt
    unfold CircuitBreaker.is_open
    rw [hopen, hcfg]
    simp [Nat.not_le.mpr hlt]
  · intro now hge
    unfold CircuitBreaker.is_open
    rw [hopen, hcfg]
    simp only [ge_iff_le, hge, if_true]
    refine ⟨by simp, ?_⟩
    unfold CircuitBreaker.transition_to_half_open
    rw [hopen]
    simp [CircuitBreaker.insertState]
  · intro cb s hc hs
    unfold CircuitBreaker.record_success
    rw [hs]
    simp only [hc]
    constructor
    · by_cases h : cfg.success_threshold ≤ s + 1
      · simp [ge_iff_le, h, CircuitBreaker.insertState]
      · simp [ge_iff_le, h, CircuitBreaker.insertState]
    · intro hlt
      have h : ¬ (cfg.success_threshold ≤ s + 1) := by omega
      simp [ge_iff_le, h, CircuitBreaker.insertState]
  · intro cb s now2 hs
    unfold CircuitBreaker.record_failure
    rw [hs]
    simp [CircuitBreaker.insertState]

/-- Counterexample to C8 as stated: with `failure_threshold = 1` a fresh
circuit (which `state` reports as `Closed` with zero failures) records its
first failure through the `None` arm of `record_failure`, which
unconditionally stores `Closed` with one failure without consulting the
threshold — so after `failure_threshold` consecutive failures the circuit
is still closed and `is_open` answers `false`. -/
theorem C8_counterexample_threshold_one :
    (CircuitBreaker.state (CircuitBreaker.new ⟨1, 30, 2⟩)
        LensType.DignityInclusion = CircuitState.Closed 0)
    ∧ ((CircuitBreaker.record_failure (CircuitBreaker.new ⟨1, 30, 2⟩)
          LensType.DignityInclusion 0).states LensType.DignityInclusion
        = some (CircuitState.Closed 1))
    ∧ ((CircuitBreaker.is_open
          (CircuitBreaker.record_failure (CircuitBreaker.new ⟨1, 30, 2⟩)
            LensType.DignityInclusion 0)
          LensType.DignityInclusion 0).1 = false) :=
  ⟨rfl, rfl, rfl⟩

/-- Witness for C8 at the default configuration (threshold 3): three
failures at time 0 open the circuit, and at time 10 (before the 30-second
recovery timeout) `is_open` still answers `true` without touching the
breaker. -/
theorem C8_witness :
    ((openedBreaker ⟨3, 30, 2⟩ LensType.DignityInclusion 0).states
        LensType.DignityInclusion = some (CircuitState.Open 0))
    ∧ (CircuitBreaker.is_open
        (openedBreaker ⟨3, 30, 2⟩ LensType.DignityInclusion 0)
        LensType.DignityInclusion 10
        = (true, openedBreaker ⟨3, 30, 2⟩ LensType.DignityInclusion 0)) := by
  have h := C8_circuit_breaker ⟨3, 30, 2⟩ LensType.DignityInclusion 0 (by decide)
  exact ⟨h.1, h.2.1 10 (by decide)⟩

end Steward
